import Mathlib

set_option linter.unusedVariables false

/-
Verification development for the Azure DevOps work-item automation tool
(`create_work_items.py`).  The definitions below are a shallow embedding of
the tree-processing engine, the result summary and the HTTP retry policy;
remote responses are supplied by scripted oracles so that every behaviour of
the client is expressible as a concrete input.
-/

namespace ADO

/-! ## HTTP layer: `AzureDevOpsClient._request` retry policy -/

def MAX_RETRIES : Nat := 3

/-- One scripted transport-level result of a `session.request` call: an HTTP
response carrying its status code together with the error message the caller
would extract from its body, or a raised `requests.ConnectionError` carrying
its string rendering. -/
inductive Resp where
  | http (status : Nat) (errMsg : String)
  | connError (msg : String)
deriving DecidableEq, Repr

/-- What `_request` hands back: a returned response, or a re-raised
`requests.ConnectionError` after the final attempt also failed. -/
inductive ReqOutcome where
  | response (status : Nat) (errMsg : String)
  | connRaise (msg : String)
deriving DecidableEq, Repr

/-- Result of `_request` together with the observable effort: how many
`session.request` calls were issued and how many `time.sleep` waits ran. -/
structure ReqRun where
  outcome : ReqOutcome
  attempts : Nat
  waits : Nat
deriving DecidableEq, Repr

/-- The body of `_request`'s `for attempt in range(MAX_RETRIES + 1)` loop.
`remaining` counts the loop iterations still allowed after the current one,
so `remaining = 0` exactly when `attempt == MAX_RETRIES`.  A 429 response
sleeps and continues (on the last iteration the loop then ends and the final
429 response is returned); a connection error sleeps and continues unless it
is the last attempt, which re-raises; any other status is returned at once. -/
def requestAux (responses : Nat → Resp) (attempt : Nat) : Nat → ReqRun
  | 0 =>
    match responses attempt with
    | Resp.http status m =>
      if status = 429 then ⟨ReqOutcome.response 429 m, 1, 1⟩
      else ⟨ReqOutcome.response status m, 1, 0⟩
    | Resp.connError msg => ⟨ReqOutcome.connRaise msg, 1, 0⟩
  | remaining + 1 =>
    match responses attempt with
    | Resp.http status m =>
      if status = 429 then
        let r := requestAux responses (attempt + 1) remaining
        ⟨r.outcome, r.attempts + 1, r.waits + 1⟩
      else ⟨ReqOutcome.response status m, 1, 0⟩
    | Resp.connError _ =>
      let r := requestAux responses (attempt + 1) remaining
      ⟨r.outcome, r.attempts + 1, r.waits + 1⟩

/-- The full `AzureDevOpsClient._request` over a scripted sequence of transport
results, starting at attempt 0 with `MAX_RETRIES` further attempts allowed. -/
def request (responses : Nat → Resp) : ReqRun :=
  requestAux responses 0 MAX_RETRIES

/-- The fixed authentication-failure message raised on HTTP 401/403. -/
def AUTH_MSG : String := "Authentication failed. Check your PAT and its permissions."

/-- The `str()` rendering of `AzureDevOpsError(status_code, message)`. -/
def adoErrStr (status : Nat) (message : String) : String :=
  "HTTP " ++ toString status ++ ": " ++ message

/-- What `AzureDevOpsClient.create_work_item` yields at its caller: the new
work item id on success, or one of the raised exception kinds. -/
inductive CreateOutcome where
  | ok (adoId : Nat)
  | authRaise (status : Nat)
  | adoRaise (status : Nat) (msg : String)
  | connRaise (msg : String)
deriving DecidableEq, Repr

/-- Result of `create_work_item` together with the transport effort. -/
structure CreateRun where
  outcome : CreateOutcome
  attempts : Nat
  waits : Nat
deriving DecidableEq, Repr

/-- The status handling of `create_work_item` applied to the response that
`_request` returns: 401/403 raise the authentication `AzureDevOpsError`, any
status of at least 400 raises a generic `AzureDevOpsError` carrying the
extracted body message, otherwise the new id is read from the body (here
abstracted as `newId`).  A connection error propagating out of `_request`
propagates out of `create_work_item` as well. -/
def create_work_item_run (responses : Nat → Resp) (newId : Nat) : CreateRun :=
  match request responses with
  | ⟨ReqOutcome.connRaise m, a, w⟩ => ⟨CreateOutcome.connRaise m, a, w⟩
  | ⟨ReqOutcome.response status m, a, w⟩ =>
    if status = 401 ∨ status = 403 then ⟨CreateOutcome.authRaise status, a, w⟩
    else if 400 ≤ status then ⟨CreateOutcome.adoRaise status m, a, w⟩
    else ⟨CreateOutcome.ok newId, a, w⟩

/-! ## Result summary -/

/-- The `Summary` accumulator: three counters and the retained failure
messages.  Log lines are not retained by the source either. -/
structure Summary where
  created : Nat
  skipped : Nat
  failed : Nat
  failures : List String
deriving DecidableEq, Repr

def Summary.init : Summary := ⟨0, 0, 0, []⟩

def Summary.record_created (s : Summary) (localId title : String) (adoId : Nat)
    (url : String) : Summary :=
  { s with created := s.created + 1 }

def Summary.record_skipped (s : Summary) (localId title : String) (adoId : Nat) : Summary :=
  { s with skipped := s.skipped + 1 }

def Summary.record_failed (s : Summary) (localId title error : String) : Summary :=
  { s with failed := s.failed + 1,
           failures := s.failures ++ ["[" ++ localId ++ "] \"" ++ title ++ "\": " ++ error] }

def Summary.record_dry_run (s : Summary) (localId title workItemType : String)
    (assignedTo : Option String) (parentLabel : Option String) : Summary :=
  { s with created := s.created + 1 }

/-! ## Plan tree data model -/

/-- The role → work-item-type mapping extracted by `get_work_item_types`. -/
structure Wit where
  epic : String
  feature : String
  task : String
deriving DecidableEq, Repr

/-- Configuration built by `build_config`: org url, project, access token. -/
structure Config where
  org_url : String
  project : String
  pat : String
deriving DecidableEq, Repr

structure Task where
  id : String
  title : String
  description : Option String := none
  fields : Option (List (String × String)) := none
  assignedTo : Option String := none
deriving DecidableEq, Repr

/-- A feature; the schema requires `ownerUserIds` to be non-empty (the source
reads `ownerUserIds[0]`, which would raise `IndexError` on an empty list). -/
structure Feature where
  id : String
  title : String
  description : Option String := none
  ownerUserIds : List String := []
  fields : Option (List (String × String)) := none
  tasks : List Task := []
deriving DecidableEq, Repr

structure Epic where
  id : String
  title : String
  description : Option String := none
  fields : Option (List (String × String)) := none
  features : List Feature := []
deriving DecidableEq, Repr

structure Metadata where
  project : String
  version : String
  description : Option String := none
  workItemTypes : Wit
  assignmentStrategy : Option String := none
deriving DecidableEq, Repr

structure Plan where
  metadata : Metadata
  epics : List Epic
deriving DecidableEq, Repr

/-! ## Remote client oracle

`find_existing_work_item` raises `AzureDevOpsError` only for HTTP 401/403;
every other failing status surfaces through `resp.raise_for_status()` as a
`requests.HTTPError`, and exhausted connection retries surface as a
`requests.ConnectionError`.  Both of the latter are `requests.RequestException`
but not `AzureDevOpsError`. -/

inductive FindOutcome where
  | found (adoId : Nat)
  | notFound
  | authRaise (status : Nat)
  | httpRaise (status : Nat) (msg : String)
  | connRaise (msg : String)
deriving DecidableEq, Repr

/-- A scripted remote client: the outcome of the n-th lookup call and of the
n-th create call made during a run. -/
structure Client where
  findResp : Nat → FindOutcome
  createResp : Nat → CreateOutcome

/-! ## Instrumented processing state -/

inductive Level where
  | epic
  | feature
  | task
deriving DecidableEq, Repr

/-- A record of one remote-client invocation with the arguments it was
passed, tagged with the tree level that issued it. -/
inductive Call where
  | findCall (level : Level) (title ty : String)
  | createCall (level : Level) (ty title : String) (description : Option String)
      (assigned_to : Option String) (parent_id : Option Nat)
      (custom_fields : Option (List (String × String)))
deriving DecidableEq, Repr

/-- The outcome recorded in the `Summary` for one attempted node. -/
inductive NodeOutcome where
  | createdOut (adoId : Nat)
  | skippedOut (adoId : Nat)
  | failedOut (error : String)
  | dryRunOut (assignee : Option String) (parentLabel : Option String)
deriving DecidableEq, Repr

/-- One `Summary.record_*` invocation: which node, at which level, with which
outcome. -/
structure Event where
  level : Level
  localId : String
  outcome : NodeOutcome
deriving DecidableEq, Repr

/-- State threaded through `process_epics`: the summary plus an instrumented
trace of client calls and of summary records (`nFind`/`nCreate` index into the
scripted client). -/
structure PState where
  summary : Summary
  nFind : Nat
  nCreate : Nat
  calls : List Call
  events : List Event
deriving DecidableEq, Repr

def PState.init : PState := ⟨Summary.init, 0, 0, [], []⟩

/-- State change of issuing one lookup call: the n-th lookup slot of the
scripted client is consumed and the call is traced.  Its outcome is
`c.findResp st.nFind`. -/
def PState.afterFind (st : PState) (lvl : Level) (title ty : String) : PState :=
  { st with nFind := st.nFind + 1, calls := st.calls ++ [Call.findCall lvl title ty] }

/-- State change of issuing one create call; its outcome is
`c.createResp st.nCreate`. -/
def PState.afterCreate (st : PState) (lvl : Level) (ty title : String)
    (description assigned_to : Option String) (parent_id : Option Nat)
    (custom_fields : Option (List (String × String))) : PState :=
  { st with nCreate := st.nCreate + 1,
            calls := st.calls ++
              [Call.createCall lvl ty title description assigned_to parent_id custom_fields] }

def PState.recCreated (st : PState) (lvl : Level) (localId title : String) (adoId : Nat)
    (url : String) : PState :=
  { st with summary := st.summary.record_created localId title adoId url,
            events := st.events ++ [⟨lvl, localId, NodeOutcome.createdOut adoId⟩] }

def PState.recSkipped (st : PState) (lvl : Level) (localId title : String) (adoId : Nat) :
    PState :=
  { st with summary := st.summary.record_skipped localId title adoId,
            events := st.events ++ [⟨lvl, localId, NodeOutcome.skippedOut adoId⟩] }

def PState.recFailed (st : PState) (lvl : Level) (localId title error : String) : PState :=
  { st with summary := st.summary.record_failed localId title error,
            events := st.events ++ [⟨lvl, localId, NodeOutcome.failedOut error⟩] }

def PState.recDryRun (st : PState) (lvl : Level) (localId title ty : String)
    (assignee : Option String) (parentLabel : Option String) : PState :=
  { st with summary := st.summary.record_dry_run localId title ty assignee parentLabel,
            events := st.events ++ [⟨lvl, localId, NodeOutcome.dryRunOut assignee parentLabel⟩] }

/-! ## Tree processor (`process_epics`) -/

/-- The `_get_work_item_url` helper. -/
def get_work_item_url (org_url project : String) (adoId : Nat) : String :=
  org_url ++ "/" ++ project ++ "/_workitems/edit/" ++ toString adoId

/-- The parameters `process_epics` receives and threads unchanged through the
whole traversal. -/
structure Ctx where
  client : Client
  config : Config
  dry_run : Bool
  skip_duplicate_check : Bool
  wit : Wit

/-- How `process_epics` can terminate abnormally: an exception propagating
out of the epic-level duplicate check (the only uncaught spot). -/
inductive RunError where
  | auth (status : Nat)
  | http (status : Nat) (msg : String)
  | conn (msg : String)
deriving DecidableEq, Repr

/-- The task-level decision chain after the duplicate check: skipped when a
remote id was found, dry-run record in dry-run mode, otherwise a live create
whose failure is recorded (tasks have no subtree to skip). -/
def processTaskBody (ctx : Ctx) (owner featIdLocal : String) (featAdoId : Option Nat)
    (task : Task) (taskAdoId : Option Nat) (st : PState) : PState :=
  match taskAdoId with
  | some tid => st.recSkipped Level.task task.id task.title tid
  | none =>
    if ctx.dry_run then
      st.recDryRun Level.task task.id task.title ctx.wit.task (some owner)
        (some (ctx.wit.feature ++ " [" ++ featIdLocal ++ "]"))
    else
      let st' := st.afterCreate Level.task ctx.wit.task task.title task.description
        (some owner) featAdoId task.fields
      match ctx.client.createResp st.nCreate with
      | CreateOutcome.ok tid =>
        st'.recCreated Level.task task.id task.title tid
          (get_work_item_url ctx.config.org_url ctx.config.project tid)
      | CreateOutcome.authRaise s =>
        st'.recFailed Level.task task.id task.title (adoErrStr s AUTH_MSG)
      | CreateOutcome.adoRaise s m =>
        st'.recFailed Level.task task.id task.title (adoErrStr s m)
      | CreateOutcome.connRaise m =>
        st'.recFailed Level.task task.id task.title m

/-- One task.  The duplicate-check `except` clause catches both
`AzureDevOpsError` (including 401/403) and `requests.RequestException`,
records the failure and continues with the next task. -/
def processTask (ctx : Ctx) (owner featIdLocal : String) (featAdoId : Option Nat)
    (task : Task) (st : PState) : PState :=
  if !ctx.skip_duplicate_check && !ctx.dry_run then
    let st' := st.afterFind Level.task task.title ctx.wit.task
    match ctx.client.findResp st.nFind with
    | FindOutcome.found tid =>
      processTaskBody ctx owner featIdLocal featAdoId task (some tid) st'
    | FindOutcome.notFound =>
      processTaskBody ctx owner featIdLocal featAdoId task none st'
    | FindOutcome.authRaise s =>
      st'.recFailed Level.task task.id task.title (adoErrStr s AUTH_MSG)
    | FindOutcome.httpRaise s m =>
      st'.recFailed Level.task task.id task.title m
    | FindOutcome.connRaise m =>
      st'.recFailed Level.task task.id task.title m
  else
    processTaskBody ctx owner featIdLocal featAdoId task none st

def processTasks (ctx : Ctx) (owner featIdLocal : String) (featAdoId : Option Nat) :
    List Task → PState → PState
  | [], st => st
  | t :: rest, st =>
    processTasks ctx owner featIdLocal featAdoId rest
      (processTask ctx owner featIdLocal featAdoId t st)

/-- The feature-level decision chain after the duplicate check.  A skipped
(pre-existing) feature still has its tasks processed under the found id; a
failed create abandons the tasks (`continue`). -/
def processFeatureBody (ctx : Ctx) (epicIdLocal : String) (epicAdoId : Option Nat)
    (feature : Feature) (owner : String) (featAdoId : Option Nat) (st : PState) : PState :=
  match featAdoId with
  | some fid =>
    processTasks ctx owner feature.id (some fid) feature.tasks
      (st.recSkipped Level.feature feature.id feature.title fid)
  | none =>
    if ctx.dry_run then
      processTasks ctx owner feature.id none feature.tasks
        (st.recDryRun Level.feature feature.id feature.title ctx.wit.feature (some owner)
          (some (ctx.wit.epic ++ " [" ++ epicIdLocal ++ "]")))
    else
      let st' := st.afterCreate Level.feature ctx.wit.feature feature.title
        feature.description (some owner) epicAdoId feature.fields
      match ctx.client.createResp st.nCreate with
      | CreateOutcome.ok fid =>
        processTasks ctx owner feature.id (some fid) feature.tasks
          (st'.recCreated Level.feature feature.id feature.title fid
            (get_work_item_url ctx.config.org_url ctx.config.project fid))
      | CreateOutcome.authRaise s =>
        st'.recFailed Level.feature feature.id feature.title (adoErrStr s AUTH_MSG)
      | CreateOutcome.adoRaise s m =>
        st'.recFailed Level.feature feature.id feature.title (adoErrStr s m)
      | CreateOutcome.connRaise m =>
        st'.recFailed Level.feature feature.id feature.title m

/-- One feature.  The owner is `ownerUserIds[0]`; the duplicate-check
`except` clause catches both `AzureDevOpsError` (including 401/403) and
`requests.RequestException`, records the failure and continues with the next
feature, skipping the tasks. -/
def processFeature (ctx : Ctx) (epicIdLocal : String) (epicAdoId : Option Nat)
    (feature : Feature) (st : PState) : PState :=
  let owner := feature.ownerUserIds.headD ""
  if !ctx.skip_duplicate_check && !ctx.dry_run then
    let st' := st.afterFind Level.feature feature.title ctx.wit.feature
    match ctx.client.findResp st.nFind with
    | FindOutcome.found fid =>
      processFeatureBody ctx epicIdLocal epicAdoId feature owner (some fid) st'
    | FindOutcome.notFound =>
      processFeatureBody ctx epicIdLocal epicAdoId feature owner none st'
    | FindOutcome.authRaise s =>
      st'.recFailed Level.feature feature.id feature.title (adoErrStr s AUTH_MSG)
    | FindOutcome.httpRaise s m =>
      st'.recFailed Level.feature feature.id feature.title m
    | FindOutcome.connRaise m =>
      st'.recFailed Level.feature feature.id feature.title m
  else
    processFeatureBody ctx epicIdLocal epicAdoId feature owner none st

def processFeatures (ctx : Ctx) (epicIdLocal : String) (epicAdoId : Option Nat) :
    List Feature → PState → PState
  | [], st => st
  | f :: rest, st =>
    processFeatures ctx epicIdLocal epicAdoId rest
      (processFeature ctx epicIdLocal epicAdoId f st)

/-- The epic-level decision chain after the duplicate check.  A failed epic
create records the failure and abandons the features (`continue`). -/
def processEpicBody (ctx : Ctx) (epic : Epic) (epicAdoId : Option Nat) (st : PState) :
    PState :=
  match epicAdoId with
  | some eid =>
    processFeatures ctx epic.id (some eid) epic.features
      (st.recSkipped Level.epic epic.id epic.title eid)
  | none =>
    if ctx.dry_run then
      processFeatures ctx epic.id none epic.features
        (st.recDryRun Level.epic epic.id epic.title ctx.wit.epic none none)
    else
      let st' := st.afterCreate Level.epic ctx.wit.epic epic.title epic.description
        none none epic.fields
      match ctx.client.createResp st.nCreate with
      | CreateOutcome.ok eid =>
        processFeatures ctx epic.id (some eid) epic.features
          (st'.recCreated Level.epic epic.id epic.title eid
            (get_work_item_url ctx.config.org_url ctx.config.project eid))
      | CreateOutcome.authRaise s =>
        st'.recFailed Level.epic epic.id epic.title (adoErrStr s AUTH_MSG)
      | CreateOutcome.adoRaise s m =>
        st'.recFailed Level.epic epic.id epic.title (adoErrStr s m)
      | CreateOutcome.connRaise m =>
        st'.recFailed Level.epic epic.id epic.title m

/-- One epic.  The duplicate-check `except` clause here catches only
`AzureDevOpsError`: it re-raises 401/403, while a `requests.HTTPError` from
`raise_for_status` or a `requests.ConnectionError` is not caught at all, so
any lookup failure at this level propagates out of `process_epics`. -/
def processEpic (ctx : Ctx) (epic : Epic) (st : PState) : Except RunError PState :=
  if !ctx.skip_duplicate_check && !ctx.dry_run then
    let st' := st.afterFind Level.epic epic.title ctx.wit.epic
    match ctx.client.findResp st.nFind with
    | FindOutcome.found eid => Except.ok (processEpicBody ctx epic (some eid) st')
    | FindOutcome.notFound => Except.ok (processEpicBody ctx epic none st')
    | FindOutcome.authRaise s => Except.error (RunError.auth s)
    | FindOutcome.httpRaise s m => Except.error (RunError.http s m)
    | FindOutcome.connRaise m => Except.error (RunError.conn m)
  else
    Except.ok (processEpicBody ctx epic none st)

def processEpicsGo (ctx : Ctx) : List Epic → PState → Except RunError PState
  | [], st => Except.ok st
  | e :: rest, st =>
    match processEpic ctx e st with
    | Except.ok st' => processEpicsGo ctx rest st'
    | Except.error err => Except.error err

/-- The `process_epics` entry point: the full epic → feature → task traversal, from a fresh
`Summary`, over a scripted remote client. -/
def process_epics (client : Client) (config : Config) (epics : List Epic)
    (dry_run skip_duplicate_check : Bool) (wit : Wit) : Except RunError PState :=
  processEpicsGo ⟨client, config, dry_run, skip_duplicate_check, wit⟩ epics PState.init

/-! ## Input validation (`validate_input`)

The generic jsonschema step is an external collaborator; the definitions
below model the code path in which it succeeds, i.e. the duplicate-id scan
and the assignment-strategy check that `validate_input` performs itself.
The `seen_ids` dict stores id → type, but only membership of the id is ever
consulted, so it is embedded as the list of ids inserted so far. -/

def dupIdMsg (i : String) : String := "Duplicate ID: " ++ i

def taskAssignMsg (i : String) : String :=
  "[" ++ i ++ "] task.assignedTo is not allowed when assignmentStrategy is \"feature-owner\""

def scanTasks (seen errs : List String) : List Task → List String × List String
  | [] => (seen, errs)
  | t :: rest =>
    scanTasks (t.id :: seen)
      (if t.id ∈ seen then errs ++ [dupIdMsg t.id] else errs) rest

def scanFeatures (seen errs : List String) : List Feature → List String × List String
  | [] => (seen, errs)
  | f :: rest =>
    match scanTasks (f.id :: seen)
      (if f.id ∈ seen then errs ++ [dupIdMsg f.id] else errs) f.tasks with
    | (seen', errs') => scanFeatures seen' errs' rest

def scanEpics (seen errs : List String) : List Epic → List String × List String
  | [] => (seen, errs)
  | e :: rest =>
    match scanFeatures (e.id :: seen)
      (if e.id ∈ seen then errs ++ [dupIdMsg e.id] else errs) e.features with
    | (seen', errs') => scanEpics seen' errs' rest

def strategyErrTasks : List Task → List String
  | [] => []
  | t :: rest =>
    (match t.assignedTo with
     | some _ => [taskAssignMsg t.id]
     | none => []) ++ strategyErrTasks rest

def strategyErrFeatures : List Feature → List String
  | [] => []
  | f :: rest => strategyErrTasks f.tasks ++ strategyErrFeatures rest

def strategyErrEpics : List Epic → List String
  | [] => []
  | e :: rest => strategyErrFeatures e.features ++ strategyErrEpics rest

/-- The `validate_input` function after a successful schema check: the duplicate-id errors
in traversal order, followed by the feature-owner strategy errors
(`metadata.get("assignmentStrategy", "feature-owner")`). -/
def validate_input (plan : Plan) : List String :=
  let dupErrs := (scanEpics [] [] plan.epics).2
  let strategy := plan.metadata.assignmentStrategy.getD "feature-owner"
  dupErrs ++ (if strategy = "feature-owner" then strategyErrEpics plan.epics else [])

/-- The `load_and_validate_input` function after a successful parse: any validation error
makes it exit with status 2 before the plan is ever handed to processing. -/
def load_and_validate_input (plan : Plan) : Except Nat Plan :=
  if validate_input plan = [] then Except.ok plan else Except.error 2

/-! ## Summary operation sequences (for the accumulator invariant) -/

/-- One invocation of a `Summary.record_*` method with its arguments. -/
inductive SummaryOp where
  | opCreated (localId title : String) (adoId : Nat) (url : String)
  | opSkipped (localId title : String) (adoId : Nat)
  | opFailed (localId title error : String)
  | opDryRun (localId title workItemType : String) (assignedTo : Option String)
      (parentLabel : Option String)
deriving DecidableEq, Repr

def Summary.apply (s : Summary) : SummaryOp → Summary
  | SummaryOp.opCreated a b c d => s.record_created a b c d
  | SummaryOp.opSkipped a b c => s.record_skipped a b c
  | SummaryOp.opFailed a b c => s.record_failed a b c
  | SummaryOp.opDryRun a b c d e => s.record_dry_run a b c d e

def Summary.applyAll (s : Summary) : List SummaryOp → Summary
  | [] => s
  | op :: rest => (s.apply op).applyAll rest

/-- Does this operation increment the `created` counter? -/
def SummaryOp.isCreatedLike : SummaryOp → Bool
  | SummaryOp.opCreated _ _ _ _ => true
  | SummaryOp.opDryRun _ _ _ _ _ => true
  | _ => false

def SummaryOp.isSkippedOp : SummaryOp → Bool
  | SummaryOp.opSkipped _ _ _ => true
  | _ => false

def SummaryOp.isFailedOp : SummaryOp → Bool
  | SummaryOp.opFailed _ _ _ => true
  | _ => false

/-! ## Predicates used to state the verified properties -/

/-- Does this recorded outcome increment the `created` counter?  Both live
creations and dry-run records do. -/
def NodeOutcome.countsCreated : NodeOutcome → Bool
  | NodeOutcome.createdOut _ => true
  | NodeOutcome.dryRunOut _ _ => true
  | _ => false

def NodeOutcome.countsSkipped : NodeOutcome → Bool
  | NodeOutcome.skippedOut _ => true
  | _ => false

def NodeOutcome.countsFailed : NodeOutcome → Bool
  | NodeOutcome.failedOut _ => true
  | _ => false

/-- The summary counters agree with the per-node outcome trace: each counter
equals the number of recorded outcomes of its kind, and the failures list has
one message per failed outcome. -/
def SummaryMatches (st : PState) : Prop :=
  st.summary.created = (st.events.filter (fun e => e.outcome.countsCreated)).length ∧
  st.summary.skipped = (st.events.filter (fun e => e.outcome.countsSkipped)).length ∧
  st.summary.failed = (st.events.filter (fun e => e.outcome.countsFailed)).length ∧
  st.summary.failures.length = st.summary.failed

def featuresNodeCount : List Feature → Nat
  | [] => 0
  | f :: rest => (1 + f.tasks.length) + featuresNodeCount rest

def epicsNodeCount : List Epic → Nat
  | [] => 0
  | e :: rest => (1 + featuresNodeCount e.features) + epicsNodeCount rest

/-- Every call appended while processing one task under a feature: at most a
task-level lookup and a task-level create whose assignee is the feature owner
and whose parent is the feature's remote id. -/
def taskScopeCall (o : String) (fa : Option Nat) : Call → Prop
  | Call.findCall Level.task _ _ => True
  | Call.createCall Level.task _ _ _ a p _ => a = some o ∧ p = fa
  | _ => False

/-- Every outcome recorded while processing one task: task-level, and a
dry-run record carries the inherited feature owner as assignee. -/
def taskScopeEvent (o : String) : Event → Prop
  | ⟨Level.task, _, NodeOutcome.dryRunOut a _⟩ => a = some o
  | ⟨Level.task, _, _⟩ => True
  | _ => False

/-- Every call appended while processing one feature (and its tasks). -/
def featScopeCall (o : String) (p : Option Nat) : Call → Prop
  | Call.findCall Level.feature _ _ => True
  | Call.findCall Level.task _ _ => True
  | Call.createCall Level.feature _ _ _ a parent _ => a = some o ∧ parent = p
  | Call.createCall Level.task _ _ _ a _ _ => a = some o
  | _ => False

/-- Every outcome recorded while processing one feature (and its tasks). -/
def featScopeEvent (o : String) : Event → Prop
  | ⟨Level.feature, _, NodeOutcome.dryRunOut a _⟩ => a = some o
  | ⟨Level.feature, _, _⟩ => True
  | ⟨Level.task, _, NodeOutcome.dryRunOut a _⟩ => a = some o
  | ⟨Level.task, _, _⟩ => True
  | _ => False

/-- A feature-level create call links to the given parent id; no constraint
on any other call. -/
def featureCreateParentIs (p : Option Nat) : Call → Prop
  | Call.createCall Level.feature _ _ _ _ parent _ => parent = p
  | _ => True

/-- A task-level create call links to the given parent id; no constraint on
any other call. -/
def taskCreateParentIs (p : Option Nat) : Call → Prop
  | Call.createCall Level.task _ _ _ _ parent _ => parent = p
  | _ => True

/-- A task-level create call carries the given assignee; no constraint on any
other call. -/
def taskAssigneeOk (o : String) : Call → Prop
  | Call.createCall Level.task _ _ _ a _ _ => a = some o
  | _ => True

/-- A task-level dry-run record shows the given assignee; no constraint on
any other record. -/
def taskDryAssigneeOk (o : String) : Event → Prop
  | ⟨Level.task, _, NodeOutcome.dryRunOut a _⟩ => a = some o
  | _ => True

/-- All local ids of the plan in the order the duplicate scan visits them. -/
def idsOfFeature (f : Feature) : List String :=
  f.id :: f.tasks.map Task.id

def idsOfEpic (e : Epic) : List String :=
  e.id :: (e.features.map idsOfFeature).flatten

def allIds (epics : List Epic) : List String :=
  (epics.map idsOfEpic).flatten

/-- The duplicate errors produced by scanning a flat id list with a running
set of already-seen ids. -/
def dupScan (seen : List String) : List String → List String
  | [] => []
  | i :: rest =>
    (if i ∈ seen then [dupIdMsg i] else []) ++ dupScan (i :: seen) rest

/-- Push a list of ids onto the seen-set accumulator, first id innermost. -/
def pushAll (seen : List String) : List String → List String
  | [] => seen
  | i :: rest => pushAll (i :: seen) rest

/-- The message under which a lookup failure is recorded when the feature- or
task-level `except (AzureDevOpsError, requests.RequestException)` clause
catches it (`str(exc)`). -/
def errOfFindFailure : FindOutcome → Option String
  | FindOutcome.found _ => none
  | FindOutcome.notFound => none
  | FindOutcome.authRaise s => some (adoErrStr s AUTH_MSG)
  | FindOutcome.httpRaise _ m => some m
  | FindOutcome.connRaise m => some m

/-- The message under which a create failure is recorded by the
`except (AzureDevOpsError, requests.RequestException)` clause around a
`create_work_item` call (`str(exc)`). -/
def errOfCreateFailure : CreateOutcome → Option String
  | CreateOutcome.ok _ => none
  | CreateOutcome.authRaise s => some (adoErrStr s AUTH_MSG)
  | CreateOutcome.adoRaise s m => some (adoErrStr s m)
  | CreateOutcome.connRaise m => some m

/-! ## Concrete fixtures -/

def cfg0 : Config := ⟨"https://dev.azure.com/org", "Proj", "pat"⟩

def wit0 : Wit := ⟨"Epic", "Feature", "Task"⟩

def task0 : Task := { id := "T1", title := "Gamma" }

def feat0 : Feature :=
  { id := "F1", title := "Beta", ownerUserIds := ["a@x.com"], tasks := [task0] }

def epic0 : Epic := { id := "E1", title := "Alpha", features := [feat0] }

def meta0 : Metadata := { project := "P", version := "1", workItemTypes := wit0 }

/-- A client whose epic-level duplicate check raises a connection error. -/
def connFailFindClient : Client :=
  ⟨fun _ => FindOutcome.connRaise "Connection aborted.", fun _ => CreateOutcome.ok 1⟩

/-- A client whose epic-level duplicate check gets an HTTP 500 from
`raise_for_status`. -/
def httpFailFindClient : Client :=
  ⟨fun _ => FindOutcome.httpRaise 500 "500 Server Error", fun _ => CreateOutcome.ok 1⟩

/-- A client whose first lookup (the epic) finds nothing and whose second
lookup (the feature) raises the authentication error. -/
def authAtFeatureClient : Client :=
  ⟨fun n => if n = 0 then FindOutcome.notFound else FindOutcome.authRaise 401,
   fun _ => CreateOutcome.ok 101⟩

/-- The spec's failing-feature scenario: every lookup finds nothing, the
first create (the epic) succeeds with id 101, the next create (the feature)
fails with HTTP 500. -/
def failFeatureClient : Client :=
  ⟨fun _ => FindOutcome.notFound,
   fun n => if n = 0 then CreateOutcome.ok 101 else CreateOutcome.adoRaise 500 "boom"⟩

/-- A client whose every lookup finds a pre-existing work item (id 77) and
whose creates succeed with id 200. -/
def foundClient : Client :=
  ⟨fun _ => FindOutcome.found 77, fun _ => CreateOutcome.ok 200⟩

/-- A client whose lookups find nothing and whose creates succeed (id 200). -/
def okCreateClient : Client :=
  ⟨fun _ => FindOutcome.notFound, fun _ => CreateOutcome.ok 200⟩

/-- Unpack a completed run; used to name the final state of a concrete run. -/
def runState (r : Except RunError PState) : PState :=
  r.toOption.getD PState.init

/-- A plan in which the local id E1 is used by both an epic and its feature. -/
def dupFeat : Feature := { id := "E1", title := "Beta", ownerUserIds := ["a@x.com"] }

def dupEpic : Epic := { id := "E1", title := "Alpha", features := [dupFeat] }

def planDup : Plan := ⟨meta0, [dupEpic]⟩

/-- A plan whose only task carries its own assignedTo. -/
def assignedTask : Task := { id := "T9", title := "Gamma", assignedTo := some "x@y.z" }

def assignedFeat : Feature :=
  { id := "F9", title := "Beta", ownerUserIds := ["a@x.com"], tasks := [assignedTask] }

def planAssigned : Plan := ⟨meta0, [{ id := "E9", title := "Alpha", features := [assignedFeat] }]⟩

/-! ## Helper lemmas: summary-trace correspondence -/


@[simp] lemma afterFind_summary (st : PState) (l : Level) (t ty : String) :
    (st.afterFind l t ty).summary = st.summary := rfl

@[simp] lemma afterFind_events (st : PState) (l : Level) (t ty : String) :
    (st.afterFind l t ty).events = st.events := rfl

@[simp] lemma afterFind_calls (st : PState) (l : Level) (t ty : String) :
    (st.afterFind l t ty).calls = st.calls ++ [Call.findCall l t ty] := rfl

@[simp] lemma afterCreate_summary (st : PState) (l : Level) (ty t : String)
    (d a : Option String) (p : Option Nat) (cf : Option (List (String × String))) :
    (st.afterCreate l ty t d a p cf).summary = st.summary := rfl

@[simp] lemma afterCreate_events (st : PState) (l : Level) (ty t : String)
    (d a : Option String) (p : Option Nat) (cf : Option (List (String × String))) :
    (st.afterCreate l ty t d a p cf).events = st.events := rfl

@[simp] lemma afterCreate_calls (st : PState) (l : Level) (ty t : String)
    (d a : Option String) (p : Option Nat) (cf : Option (List (String × String))) :
    (st.afterCreate l ty t d a p cf).calls =
      st.calls ++ [Call.createCall l ty t d a p cf] := rfl

@[simp] lemma recCreated_calls (st : PState) (l : Level) (i t : String) (a : Nat) (u : String) :
    (st.recCreated l i t a u).calls = st.calls := rfl

@[simp] lemma recSkipped_calls (st : PState) (l : Level) (i t : String) (a : Nat) :
    (st.recSkipped l i t a).calls = st.calls := rfl

@[simp] lemma recFailed_calls (st : PState) (l : Level) (i t e : String) :
    (st.recFailed l i t e).calls = st.calls := rfl

@[simp] lemma recDryRun_calls (st : PState) (l : Level) (i t ty : String)
    (a : Option String) (p : Option String) :
    (st.recDryRun l i t ty a p).calls = st.calls := rfl

@[simp] lemma recCreated_events (st : PState) (l : Level) (i t : String) (a : Nat) (u : String) :
    (st.recCreated l i t a u).events = st.events ++ [⟨l, i, NodeOutcome.createdOut a⟩] := rfl

@[simp] lemma recSkipped_events (st : PState) (l : Level) (i t : String) (a : Nat) :
    (st.recSkipped l i t a).events = st.events ++ [⟨l, i, NodeOutcome.skippedOut a⟩] := rfl

@[simp] lemma recFailed_events (st : PState) (l : Level) (i t e : String) :
    (st.recFailed l i t e).events = st.events ++ [⟨l, i, NodeOutcome.failedOut e⟩] := rfl

@[simp] lemma recDryRun_events (st : PState) (l : Level) (i t ty : String)
    (a : Option String) (p : Option String) :
    (st.recDryRun l i t ty a p).events = st.events ++ [⟨l, i, NodeOutcome.dryRunOut a p⟩] := rfl

lemma SM_afterFind (st : PState) (l : Level) (t ty : String) (h : SummaryMatches st) :
    SummaryMatches (st.afterFind l t ty) := h

lemma SM_afterCreate (st : PState) (l : Level) (ty t : String) (d a : Option String)
    (p : Option Nat) (cf : Option (List (String × String))) (h : SummaryMatches st) :
    SummaryMatches (st.afterCreate l ty t d a p cf) := h

lemma SM_recCreated (st : PState) (l : Level) (i t : String) (a : Nat) (u : String)
    (h : SummaryMatches st) : SummaryMatches (st.recCreated l i t a u) := by
  obtain ⟨h1, h2, h3, h4⟩ := h
  refine ⟨?_, ?_, ?_, ?_⟩ <;>
    simp [PState.recCreated, Summary.record_created, NodeOutcome.countsCreated,
      NodeOutcome.countsSkipped, NodeOutcome.countsFailed, List.filter_append, h1, h2, h3, h4]

lemma SM_recSkipped (st : PState) (l : Level) (i t : String) (a : Nat)
    (h : SummaryMatches st) : SummaryMatches (st.recSkipped l i t a) := by
  obtain ⟨h1, h2, h3, h4⟩ := h
  refine ⟨?_, ?_, ?_, ?_⟩ <;>
    simp [PState.recSkipped, Summary.record_skipped, NodeOutcome.countsCreated,
      NodeOutcome.countsSkipped, NodeOutcome.countsFailed, List.filter_append, h1, h2, h3, h4]

lemma SM_recFailed (st : PState) (l : Level) (i t e : String)
    (h : SummaryMatches st) : SummaryMatches (st.recFailed l i t e) := by
  obtain ⟨h1, h2, h3, h4⟩ := h
  refine ⟨?_, ?_, ?_, ?_⟩ <;>
    simp [PState.recFailed, Summary.record_failed, NodeOutcome.countsCreated,
      NodeOutcome.countsSkipped, NodeOutcome.countsFailed, List.filter_append, h1, h2, h3, h4]

lemma SM_recDryRun (st : PState) (l : Level) (i t ty : String) (a : Option String)
    (p : Option String) (h : SummaryMatches st) : SummaryMatches (st.recDryRun l i t ty a p) := by
  obtain ⟨h1, h2, h3, h4⟩ := h
  refine ⟨?_, ?_, ?_, ?_⟩ <;>
    simp [PState.recDryRun, Summary.record_dry_run, NodeOutcome.countsCreated,
      NodeOutcome.countsSkipped, NodeOutcome.countsFailed, List.filter_append, h1, h2, h3, h4]

lemma SM_processTaskBody (ctx : Ctx) (o fid : String) (fa : Option Nat) (t : Task)
    (tid : Option Nat) (st : PState) (h : SummaryMatches st) :
    SummaryMatches (processTaskBody ctx o fid fa t tid st) := by
  unfold processTaskBody
  split
  · exact SM_recSkipped _ _ _ _ _ h
  · split
    · exact SM_recDryRun _ _ _ _ _ _ _ h
    · split
      · exact SM_recCreated _ _ _ _ _ _ (SM_afterCreate _ _ _ _ _ _ _ _ h)
      · exact SM_recFailed _ _ _ _ _ (SM_afterCreate _ _ _ _ _ _ _ _ h)
      · exact SM_recFailed _ _ _ _ _ (SM_afterCreate _ _ _ _ _ _ _ _ h)
      · exact SM_recFailed _ _ _ _ _ (SM_afterCreate _ _ _ _ _ _ _ _ h)

lemma SM_processTask (ctx : Ctx) (o fid : String) (fa : Option Nat) (t : Task)
    (st : PState) (h : SummaryMatches st) :
    SummaryMatches (processTask ctx o fid fa t st) := by
  unfold processTask
  split
  · split
    · exact SM_processTaskBody _ _ _ _ _ _ _ (SM_afterFind _ _ _ _ h)
    · exact SM_processTaskBody _ _ _ _ _ _ _ (SM_afterFind _ _ _ _ h)
    · exact SM_recFailed _ _ _ _ _ (SM_afterFind _ _ _ _ h)
    · exact SM_recFailed _ _ _ _ _ (SM_afterFind _ _ _ _ h)
    · exact SM_recFailed _ _ _ _ _ (SM_afterFind _ _ _ _ h)
  · exact SM_processTaskBody _ _ _ _ _ _ _ h



lemma SM_processTasks (ctx : Ctx) (o fid : String) (fa : Option Nat) :
    ∀ (ts : List Task) (st : PState), SummaryMatches st →
      SummaryMatches (processTasks ctx o fid fa ts st)
  | [], st, h => h
  | t :: rest, st, h =>
    SM_processTasks ctx o fid fa rest _ (SM_processTask ctx o fid fa t st h)

lemma SM_processFeatureBody (ctx : Ctx) (eid : String) (eado : Option Nat) (f : Feature)
    (o : String) (fa : Option Nat) (st : PState) (h : SummaryMatches st) :
    SummaryMatches (processFeatureBody ctx eid eado f o fa st) := by
  unfold processFeatureBody
  split
  · exact SM_processTasks _ _ _ _ _ _ (SM_recSkipped _ _ _ _ _ h)
  · split
    · exact SM_processTasks _ _ _ _ _ _ (SM_recDryRun _ _ _ _ _ _ _ h)
    · split
      · exact SM_processTasks _ _ _ _ _ _
          (SM_recCreated _ _ _ _ _ _ (SM_afterCreate _ _ _ _ _ _ _ _ h))
      · exact SM_recFailed _ _ _ _ _ (SM_afterCreate _ _ _ _ _ _ _ _ h)
      · exact SM_recFailed _ _ _ _ _ (SM_afterCreate _ _ _ _ _ _ _ _ h)
      · exact SM_recFailed _ _ _ _ _ (SM_afterCreate _ _ _ _ _ _ _ _ h)

lemma SM_processFeature (ctx : Ctx) (eid : String) (eado : Option Nat) (f : Feature)
    (st : PState) (h : SummaryMatches st) :
    SummaryMatches (processFeature ctx eid eado f st) := by
  unfold processFeature
  split
  · split
    · exact SM_processFeatureBody _ _ _ _ _ _ _ (SM_afterFind _ _ _ _ h)
    · exact SM_processFeatureBody _ _ _ _ _ _ _ (SM_afterFind _ _ _ _ h)
    · exact SM_recFailed _ _ _ _ _ (SM_afterFind _ _ _ _ h)
    · exact SM_recFailed _ _ _ _ _ (SM_afterFind _ _ _ _ h)
    · exact SM_recFailed _ _ _ _ _ (SM_afterFind _ _ _ _ h)
  · exact SM_processFeatureBody _ _ _ _ _ _ _ h

lemma SM_processFeatures (ctx : Ctx) (eid : String) (eado : Option Nat) :
    ∀ (fs : List Feature) (st : PState), SummaryMatches st →
      SummaryMatches (processFeatures ctx eid eado fs st)
  | [], st, h => h
  | f :: rest, st, h =>
    SM_processFeatures ctx eid eado rest _ (SM_processFeature ctx eid eado f st h)

lemma SM_processEpicBody (ctx : Ctx) (e : Epic) (eado : Option Nat) (st : PState)
    (h : SummaryMatches st) : SummaryMatches (processEpicBody ctx e eado st) := by
  unfold processEpicBody
  split
  · exact SM_processFeatures _ _ _ _ _ (SM_recSkipped _ _ _ _ _ h)
  · split
    · exact SM_processFeatures _ _ _ _ _ (SM_recDryRun _ _ _ _ _ _ _ h)
    · split
      · exact SM_processFeatures _ _ _ _ _
          (SM_recCreated _ _ _ _ _ _ (SM_afterCreate _ _ _ _ _ _ _ _ h))
      · exact SM_recFailed _ _ _ _ _ (SM_afterCreate _ _ _ _ _ _ _ _ h)
      · exact SM_recFailed _ _ _ _ _ (SM_afterCreate _ _ _ _ _ _ _ _ h)
      · exact SM_recFailed _ _ _ _ _ (SM_afterCreate _ _ _ _ _ _ _ _ h)

lemma SM_processEpic (ctx : Ctx) (e : Epic) (st st' : PState)
    (hrun : processEpic ctx e st = Except.ok st') (h : SummaryMatches st) :
    SummaryMatches st' := by
  unfold processEpic at hrun
  revert hrun
  split
  · split <;> intro hrun <;> first
      | (injection hrun with hh; exact hh ▸ SM_processEpicBody _ _ _ _ (SM_afterFind _ _ _ _ h))
      | exact absurd hrun (by simp)
  · intro hrun
    injection hrun with hh
    exact hh ▸ SM_processEpicBody _ _ _ _ h

lemma SM_processEpicsGo (ctx : Ctx) :
    ∀ (es : List Epic) (st st' : PState),
      processEpicsGo ctx es st = Except.ok st' → SummaryMatches st → SummaryMatches st' := by
  intro es
  induction es with
  | nil =>
    intro st st' hrun h
    unfold processEpicsGo at hrun
    injection hrun with hh
    exact hh ▸ h
  | cons e rest ih =>
    intro st st' hrun h
    unfold processEpicsGo at hrun
    revert hrun
    split
    · intro hrun
      exact ih _ _ hrun (SM_processEpic ctx e st _ (by assumption) h)
    · intro hrun; cases hrun

lemma SM_init : SummaryMatches PState.init := ⟨rfl, rfl, rfl, rfl⟩

lemma eventPartition :
    ∀ es : List Event,
      (es.filter (fun e => e.outcome.countsCreated)).length +
      (es.filter (fun e => e.outcome.countsSkipped)).length +
      (es.filter (fun e => e.outcome.countsFailed)).length = es.length := by
  intro es
  induction es with
  | nil => rfl
  | cons e rest ih =>
    obtain ⟨l, i, oc⟩ := e
    cases oc <;>
      simp [List.filter_cons, NodeOutcome.countsCreated, NodeOutcome.countsSkipped,
        NodeOutcome.countsFailed] at ih ⊢ <;> omega


/-! ## Helper lemmas: call and event traces by scope -/

@[simp] lemma record_created_created (s : Summary) (i t : String) (a : Nat) (u : String) :
    (s.record_created i t a u).created = s.created + 1 := rfl

@[simp] lemma record_created_skipped (s : Summary) (i t : String) (a : Nat) (u : String) :
    (s.record_created i t a u).skipped = s.skipped := rfl

@[simp] lemma record_created_failed (s : Summary) (i t : String) (a : Nat) (u : String) :
    (s.record_created i t a u).failed = s.failed := rfl

@[simp] lemma record_created_failures (s : Summary) (i t : String) (a : Nat) (u : String) :
    (s.record_created i t a u).failures = s.failures := rfl

@[simp] lemma record_skipped_created (s : Summary) (i t : String) (a : Nat) :
    (s.record_skipped i t a).created = s.created := rfl

@[simp] lemma record_skipped_skipped (s : Summary) (i t : String) (a : Nat) :
    (s.record_skipped i t a).skipped = s.skipped + 1 := rfl

@[simp] lemma record_skipped_failed (s : Summary) (i t : String) (a : Nat) :
    (s.record_skipped i t a).failed = s.failed := rfl

@[simp] lemma record_skipped_failures (s : Summary) (i t : String) (a : Nat) :
    (s.record_skipped i t a).failures = s.failures := rfl

@[simp] lemma record_failed_created (s : Summary) (i t e : String) :
    (s.record_failed i t e).created = s.created := rfl

@[simp] lemma record_failed_skipped (s : Summary) (i t e : String) :
    (s.record_failed i t e).skipped = s.skipped := rfl

@[simp] lemma record_failed_failed (s : Summary) (i t e : String) :
    (s.record_failed i t e).failed = s.failed + 1 := rfl

@[simp] lemma record_failed_failures (s : Summary) (i t e : String) :
    (s.record_failed i t e).failures =
      s.failures ++ ["[" ++ i ++ "] \"" ++ t ++ "\": " ++ e] := rfl

@[simp] lemma record_dry_run_created (s : Summary) (i t ty : String)
    (a : Option String) (p : Option String) :
    (s.record_dry_run i t ty a p).created = s.created + 1 := rfl

@[simp] lemma record_dry_run_skipped (s : Summary) (i t ty : String)
    (a : Option String) (p : Option String) :
    (s.record_dry_run i t ty a p).skipped = s.skipped := rfl

@[simp] lemma record_dry_run_failed (s : Summary) (i t ty : String)
    (a : Option String) (p : Option String) :
    (s.record_dry_run i t ty a p).failed = s.failed := rfl

@[simp] lemma record_dry_run_failures (s : Summary) (i t ty : String)
    (a : Option String) (p : Option String) :
    (s.record_dry_run i t ty a p).failures = s.failures := rfl


@[simp] lemma afterFind_nFind (st : PState) (l : Level) (t ty : String) :
    (st.afterFind l t ty).nFind = st.nFind + 1 := rfl

@[simp] lemma afterFind_nCreate (st : PState) (l : Level) (t ty : String) :
    (st.afterFind l t ty).nCreate = st.nCreate := rfl

@[simp] lemma afterCreate_nFind (st : PState) (l : Level) (ty t : String)
    (d a : Option String) (p : Option Nat) (cf : Option (List (String × String))) :
    (st.afterCreate l ty t d a p cf).nFind = st.nFind := rfl

@[simp] lemma afterCreate_nCreate (st : PState) (l : Level) (ty t : String)
    (d a : Option String) (p : Option Nat) (cf : Option (List (String × String))) :
    (st.afterCreate l ty t d a p cf).nCreate = st.nCreate + 1 := rfl

@[simp] lemma recCreated_summary (st : PState) (l : Level) (i t : String) (a : Nat) (u : String) :
    (st.recCreated l i t a u).summary = st.summary.record_created i t a u := rfl

@[simp] lemma recSkipped_summary (st : PState) (l : Level) (i t : String) (a : Nat) :
    (st.recSkipped l i t a).summary = st.summary.record_skipped i t a := rfl

@[simp] lemma recFailed_summary (st : PState) (l : Level) (i t e : String) :
    (st.recFailed l i t e).summary = st.summary.record_failed i t e := rfl

@[simp] lemma recDryRun_summary (st : PState) (l : Level) (i t ty : String)
    (a : Option String) (p : Option String) :
    (st.recDryRun l i t ty a p).summary = st.summary.record_dry_run i t ty a p := rfl



lemma mem_calls_processTaskBody (ctx : Ctx) (o fid : String) (fa : Option Nat) (t : Task)
    (tid : Option Nat) (st : PState) :
    ∀ c ∈ (processTaskBody ctx o fid fa t tid st).calls, c ∈ st.calls ∨ taskScopeCall o fa c := by
  intro c hc
  unfold processTaskBody at hc
  split at hc
  · simp at hc
    exact Or.inl hc
  · split at hc
    · simp at hc
      exact Or.inl hc
    · split at hc <;> simp at hc <;>
        (rcases hc with hc | rfl
         · exact Or.inl hc
         · exact Or.inr (by constructor <;> rfl))

lemma mem_calls_processTask (ctx : Ctx) (o fid : String) (fa : Option Nat) (t : Task)
    (st : PState) :
    ∀ c ∈ (processTask ctx o fid fa t st).calls, c ∈ st.calls ∨ taskScopeCall o fa c := by
  intro c hc
  unfold processTask at hc
  split at hc
  · split at hc
    · rcases mem_calls_processTaskBody _ _ _ _ _ _ _ c hc with h | h
      · simp at h
        rcases h with h | rfl
        · exact Or.inl h
        · exact Or.inr (by constructor <;> rfl)
      · exact Or.inr h
    · rcases mem_calls_processTaskBody _ _ _ _ _ _ _ c hc with h | h
      · simp at h
        rcases h with h | rfl
        · exact Or.inl h
        · exact Or.inr (by constructor <;> rfl)
      · exact Or.inr h
    all_goals simp at hc
    all_goals
      rcases hc with hc | rfl
      · exact Or.inl hc
      · exact Or.inr (by constructor <;> rfl)
  · exact mem_calls_processTaskBody _ _ _ _ _ _ _ c hc

lemma mem_calls_processTasks (ctx : Ctx) (o fid : String) (fa : Option Nat) :
    ∀ (ts : List Task) (st : PState),
      ∀ c ∈ (processTasks ctx o fid fa ts st).calls, c ∈ st.calls ∨ taskScopeCall o fa c
  | [], st, c, hc => Or.inl hc
  | t :: rest, st, c, hc => by
    rcases mem_calls_processTasks ctx o fid fa rest _ c hc with h | h
    · exact mem_calls_processTask ctx o fid fa t st c h
    · exact Or.inr h



lemma mem_events_processTaskBody (ctx : Ctx) (o fid : String) (fa : Option Nat) (t : Task)
    (tid : Option Nat) (st : PState) :
    ∀ e ∈ (processTaskBody ctx o fid fa t tid st).events, e ∈ st.events ∨ taskScopeEvent o e := by
  intro e he
  unfold processTaskBody at he
  split at he
  · simp at he
    rcases he with he | rfl
    · exact Or.inl he
    · exact Or.inr (by constructor <;> rfl)
  · split at he
    · simp at he
      rcases he with he | rfl
      · exact Or.inl he
      · exact Or.inr (by constructor <;> rfl)
    · split at he <;> simp at he <;>
        (rcases he with he | rfl
         · exact Or.inl he
         · exact Or.inr (by constructor <;> rfl))

lemma mem_events_processTask (ctx : Ctx) (o fid : String) (fa : Option Nat) (t : Task)
    (st : PState) :
    ∀ e ∈ (processTask ctx o fid fa t st).events, e ∈ st.events ∨ taskScopeEvent o e := by
  intro e he
  unfold processTask at he
  split at he
  · split at he
    · rcases mem_events_processTaskBody _ _ _ _ _ _ _ e he with h | h
      · try simp at h
        exact Or.inl h
      · exact Or.inr h
    · rcases mem_events_processTaskBody _ _ _ _ _ _ _ e he with h | h
      · try simp at h
        exact Or.inl h
      · exact Or.inr h
    all_goals simp at he
    all_goals
      rcases he with he | rfl
      · exact Or.inl he
      · exact Or.inr (by constructor <;> rfl)
  · exact mem_events_processTaskBody _ _ _ _ _ _ _ e he

lemma mem_events_processTasks (ctx : Ctx) (o fid : String) (fa : Option Nat) :
    ∀ (ts : List Task) (st : PState),
      ∀ e ∈ (processTasks ctx o fid fa ts st).events, e ∈ st.events ∨ taskScopeEvent o e
  | [], st, e, he => Or.inl he
  | t :: rest, st, e, he => by
    rcases mem_events_processTasks ctx o fid fa rest _ e he with h | h
    · exact mem_events_processTask ctx o fid fa t st e h
    · exact Or.inr h

lemma taskScopeCall_featScope (o : String) (p fa : Option Nat) (c : Call)
    (h : taskScopeCall o fa c) : featScopeCall o p c := by
  obtain (⟨l, t, ty⟩ | ⟨l, ty, t, d, a, pp, cf⟩) := c <;> cases l <;>
    simp [taskScopeCall, featScopeCall] at h ⊢ <;>
    first
    | exact h
    | exact h.1

lemma taskScopeEvent_featScope (o : String) (e : Event)
    (h : taskScopeEvent o e) : featScopeEvent o e := by
  obtain ⟨l, i, oc⟩ := e
  cases l <;> cases oc <;> simp [taskScopeEvent, featScopeEvent] at h ⊢ <;> exact h

lemma mem_calls_processFeatureBody (ctx : Ctx) (eid : String) (eado : Option Nat)
    (f : Feature) (o : String) (fa : Option Nat) (st : PState) :
    ∀ c ∈ (processFeatureBody ctx eid eado f o fa st).calls,
      c ∈ st.calls ∨ featScopeCall o eado c := by
  intro c hc
  unfold processFeatureBody at hc
  split at hc
  · rcases mem_calls_processTasks _ _ _ _ _ _ c hc with h | h
    · simp at h
      exact Or.inl h
    · exact Or.inr (taskScopeCall_featScope _ _ _ _ h)
  · split at hc
    · rcases mem_calls_processTasks _ _ _ _ _ _ c hc with h | h
      · simp at h
        exact Or.inl h
      · exact Or.inr (taskScopeCall_featScope _ _ _ _ h)
    · split at hc
      · rcases mem_calls_processTasks _ _ _ _ _ _ c hc with h | h
        · simp at h
          rcases h with h | rfl
          · exact Or.inl h
          · exact Or.inr (by constructor <;> rfl)
        · exact Or.inr (taskScopeCall_featScope _ _ _ _ h)
      all_goals simp at hc
      all_goals
        rcases hc with hc | rfl
        · exact Or.inl hc
        · exact Or.inr (by constructor <;> rfl)

lemma mem_calls_processFeature (ctx : Ctx) (eid : String) (eado : Option Nat)
    (f : Feature) (st : PState) :
    ∀ c ∈ (processFeature ctx eid eado f st).calls,
      c ∈ st.calls ∨ featScopeCall (f.ownerUserIds.headD "") eado c := by
  intro c hc
  unfold processFeature at hc
  split at hc
  · split at hc
    · rcases mem_calls_processFeatureBody _ _ _ _ _ _ _ c hc with h | h
      · simp at h
        rcases h with h | rfl
        · exact Or.inl h
        · exact Or.inr (by constructor <;> rfl)
      · exact Or.inr h
    · rcases mem_calls_processFeatureBody _ _ _ _ _ _ _ c hc with h | h
      · simp at h
        rcases h with h | rfl
        · exact Or.inl h
        · exact Or.inr (by constructor <;> rfl)
      · exact Or.inr h
    all_goals simp at hc
    all_goals
      rcases hc with hc | rfl
      · exact Or.inl hc
      · exact Or.inr (by constructor <;> rfl)
  · exact mem_calls_processFeatureBody _ _ _ _ _ _ _ c hc

lemma mem_events_processFeatureBody (ctx : Ctx) (eid : String) (eado : Option Nat)
    (f : Feature) (o : String) (fa : Option Nat) (st : PState) :
    ∀ e ∈ (processFeatureBody ctx eid eado f o fa st).events,
      e ∈ st.events ∨ featScopeEvent o e := by
  intro e he
  unfold processFeatureBody at he
  split at he
  · rcases mem_events_processTasks _ _ _ _ _ _ e he with h | h
    · simp at h
      rcases h with h | rfl
      · exact Or.inl h
      · exact Or.inr (by constructor <;> rfl)
    · exact Or.inr (taskScopeEvent_featScope _ _ h)
  · split at he
    · rcases mem_events_processTasks _ _ _ _ _ _ e he with h | h
      · simp at h
        rcases h with h | rfl
        · exact Or.inl h
        · exact Or.inr (by constructor <;> rfl)
      · exact Or.inr (taskScopeEvent_featScope _ _ h)
    · split at he
      · rcases mem_events_processTasks _ _ _ _ _ _ e he with h | h
        · simp at h
          rcases h with h | rfl
          · exact Or.inl h
          · exact Or.inr (by constructor <;> rfl)
        · exact Or.inr (taskScopeEvent_featScope _ _ h)
      all_goals simp at he
      all_goals
        rcases he with he | rfl
        · exact Or.inl he
        · exact Or.inr (by constructor <;> rfl)

lemma mem_events_processFeature (ctx : Ctx) (eid : String) (eado : Option Nat)
    (f : Feature) (st : PState) :
    ∀ e ∈ (processFeature ctx eid eado f st).events,
      e ∈ st.events ∨ featScopeEvent (f.ownerUserIds.headD "") e := by
  intro e he
  unfold processFeature at he
  split at he
  · split at he
    · rcases mem_events_processFeatureBody _ _ _ _ _ _ _ e he with h | h
      · try simp at h
        exact Or.inl h
      · exact Or.inr h
    · rcases mem_events_processFeatureBody _ _ _ _ _ _ _ e he with h | h
      · try simp at h
        exact Or.inl h
      · exact Or.inr h
    all_goals simp at he
    all_goals
      rcases he with he | rfl
      · exact Or.inl he
      · exact Or.inr (by constructor <;> rfl)
  · exact mem_events_processFeatureBody _ _ _ _ _ _ _ e he




lemma featScopeCall_createParent (o : String) (p : Option Nat) (c : Call)
    (h : featScopeCall o p c) : featureCreateParentIs p c := by
  obtain (⟨l, t, ty⟩ | ⟨l, ty, t, d, a, pp, cf⟩) := c <;> cases l <;>
    simp [featScopeCall, featureCreateParentIs] at h ⊢ <;>
    first
    | exact h
    | exact h.2

lemma featScopeCall_taskAssignee (o : String) (p : Option Nat) (c : Call)
    (h : featScopeCall o p c) : taskAssigneeOk o c := by
  obtain (⟨l, t, ty⟩ | ⟨l, ty, t, d, a, pp, cf⟩) := c <;> cases l <;>
    simp [featScopeCall, taskAssigneeOk] at h ⊢ <;>
    first
    | exact h
    | exact h.1

lemma featScopeEvent_dryAssignee (o : String) (e : Event)
    (h : featScopeEvent o e) : taskDryAssigneeOk o e := by
  obtain ⟨l, i, oc⟩ := e
  cases l <;> cases oc <;> simp [featScopeEvent, taskDryAssigneeOk] at h ⊢ <;> exact h

lemma taskScopeCall_createParent (o : String) (fa : Option Nat) (c : Call)
    (h : taskScopeCall o fa c) : taskCreateParentIs fa c := by
  obtain (⟨l, t, ty⟩ | ⟨l, ty, t, d, a, pp, cf⟩) := c <;> cases l <;>
    simp [taskScopeCall, taskCreateParentIs] at h ⊢ <;>
    first
    | exact h
    | exact h.2

lemma mem_calls_processFeatures (ctx : Ctx) (eid : String) (eado : Option Nat) :
    ∀ (fs : List Feature) (st : PState),
      ∀ c ∈ (processFeatures ctx eid eado fs st).calls,
        c ∈ st.calls ∨ featureCreateParentIs eado c
  | [], st, c, hc => Or.inl hc
  | f :: rest, st, c, hc => by
    rcases mem_calls_processFeatures ctx eid eado rest _ c hc with h | h
    · rcases mem_calls_processFeature ctx eid eado f st c h with h2 | h2
      · exact Or.inl h2
      · exact Or.inr (featScopeCall_createParent _ _ _ h2)
    · exact Or.inr h

/-! Dry-run behaviour -/

lemma dry_processTask (ctx : Ctx) (o fid : String) (fa : Option Nat) (t : Task)
    (st : PState) (hdry : ctx.dry_run = true) :
    processTask ctx o fid fa t st =
      st.recDryRun Level.task t.id t.title ctx.wit.task (some o)
        (some (ctx.wit.feature ++ " [" ++ fid ++ "]")) := by
  unfold processTask processTaskBody
  simp [hdry]

lemma dry_processTasks (ctx : Ctx) (o fid : String) (fa : Option Nat)
    (hdry : ctx.dry_run = true) :
    ∀ (ts : List Task) (st : PState),
      (processTasks ctx o fid fa ts st).calls = st.calls ∧
      (processTasks ctx o fid fa ts st).summary.created = st.summary.created + ts.length ∧
      (processTasks ctx o fid fa ts st).summary.skipped = st.summary.skipped ∧
      (processTasks ctx o fid fa ts st).summary.failed = st.summary.failed
  | [], st => by simp [processTasks]
  | t :: rest, st => by
    have ih := dry_processTasks ctx o fid fa hdry rest
      (processTask ctx o fid fa t st)
    rw [dry_processTask ctx o fid fa t st hdry] at ih
    obtain ⟨ih1, ih2, ih3, ih4⟩ := ih
    refine ⟨?_, ?_, ?_, ?_⟩ <;>
      simp [processTasks, dry_processTask ctx o fid fa t st hdry, ih1, ih2, ih3, ih4,
        Summary.record_dry_run] <;> omega



lemma dry_processFeature (ctx : Ctx) (eid : String) (eado : Option Nat) (f : Feature)
    (st : PState) (hdry : ctx.dry_run = true) :
    (processFeature ctx eid eado f st).calls = st.calls ∧
    (processFeature ctx eid eado f st).summary.created =
      st.summary.created + (1 + f.tasks.length) ∧
    (processFeature ctx eid eado f st).summary.skipped = st.summary.skipped ∧
    (processFeature ctx eid eado f st).summary.failed = st.summary.failed := by
  have hbody : processFeature ctx eid eado f st =
      processTasks ctx (f.ownerUserIds.headD "") f.id none f.tasks
        (st.recDryRun Level.feature f.id f.title ctx.wit.feature
          (some (f.ownerUserIds.headD ""))
          (some (ctx.wit.epic ++ " [" ++ eid ++ "]"))) := by
    unfold processFeature processFeatureBody
    simp [hdry]
  obtain ⟨h1, h2, h3, h4⟩ := dry_processTasks ctx (f.ownerUserIds.headD "") f.id none hdry
    f.tasks (st.recDryRun Level.feature f.id f.title ctx.wit.feature
      (some (f.ownerUserIds.headD ""))
      (some (ctx.wit.epic ++ " [" ++ eid ++ "]")))
  rw [hbody]
  refine ⟨?_, ?_, ?_, ?_⟩ <;>
    simp only [h1, h2, h3, h4, recDryRun_calls, recDryRun_summary, record_dry_run_created,
      record_dry_run_skipped, record_dry_run_failed] <;> omega

lemma dry_processFeatures (ctx : Ctx) (eid : String) (eado : Option Nat)
    (hdry : ctx.dry_run = true) :
    ∀ (fs : List Feature) (st : PState),
      (processFeatures ctx eid eado fs st).calls = st.calls ∧
      (processFeatures ctx eid eado fs st).summary.created =
        st.summary.created + featuresNodeCount fs ∧
      (processFeatures ctx eid eado fs st).summary.skipped = st.summary.skipped ∧
      (processFeatures ctx eid eado fs st).summary.failed = st.summary.failed
  | [], st => by simp [processFeatures, featuresNodeCount]
  | f :: rest, st => by
    obtain ⟨ih1, ih2, ih3, ih4⟩ := dry_processFeatures ctx eid eado hdry rest
      (processFeature ctx eid eado f st)
    obtain ⟨h1, h2, h3, h4⟩ := dry_processFeature ctx eid eado f st hdry
    refine ⟨?_, ?_, ?_, ?_⟩ <;>
      simp only [processFeatures, ih1, ih2, ih3, ih4, h1, h2, h3, h4, featuresNodeCount] <;> omega

lemma dry_processEpic (ctx : Ctx) (e : Epic) (st : PState) (hdry : ctx.dry_run = true) :
    ∃ st', processEpic ctx e st = Except.ok st' ∧
      st'.calls = st.calls ∧
      st'.summary.created = st.summary.created + (1 + featuresNodeCount e.features) ∧
      st'.summary.skipped = st.summary.skipped ∧
      st'.summary.failed = st.summary.failed := by
  have hrun : processEpic ctx e st =
      Except.ok (processFeatures ctx e.id none e.features
        (st.recDryRun Level.epic e.id e.title ctx.wit.epic none none)) := by
    unfold processEpic processEpicBody
    simp [hdry]
  obtain ⟨h1, h2, h3, h4⟩ := dry_processFeatures ctx e.id none hdry e.features
    (st.recDryRun Level.epic e.id e.title ctx.wit.epic none none)
  refine ⟨_, hrun, ?_, ?_, ?_, ?_⟩ <;>
    simp only [h1, h2, h3, h4, recDryRun_calls, recDryRun_summary, record_dry_run_created,
      record_dry_run_skipped, record_dry_run_failed] <;> omega

lemma dry_processEpicsGo (ctx : Ctx) (hdry : ctx.dry_run = true) :
    ∀ (es : List Epic) (st : PState),
      ∃ st', processEpicsGo ctx es st = Except.ok st' ∧
        st'.calls = st.calls ∧
        st'.summary.created = st.summary.created + epicsNodeCount es ∧
        st'.summary.skipped = st.summary.skipped ∧
        st'.summary.failed = st.summary.failed
  | [], st => by
    refine ⟨st, rfl, rfl, ?_, rfl, rfl⟩
    simp [epicsNodeCount]
  | e :: rest, st => by
    obtain ⟨st1, hrun1, h1, h2, h3, h4⟩ := dry_processEpic ctx e st hdry
    obtain ⟨st2, hrun2, g1, g2, g3, g4⟩ := dry_processEpicsGo ctx hdry rest st1
    refine ⟨st2, ?_, ?_, ?_, ?_, ?_⟩
    · unfold processEpicsGo
      rw [hrun1]
      exact hrun2
    · rw [g1, h1]
    · rw [g2, h2]
      simp [epicsNodeCount]
      omega
    · rw [g3, h3]
    · rw [g4, h4]




/-! Failure paths: the run aborts at the epic duplicate check, while feature
and task failures append exactly one failed record and abandon the subtree -/

lemma epicFind_http_aborts (ctx : Ctx) (e : Epic) (st : PState) (s : Nat) (m : String)
    (hskip : ctx.skip_duplicate_check = false) (hdry : ctx.dry_run = false)
    (hf : ctx.client.findResp st.nFind = FindOutcome.httpRaise s m) :
    processEpic ctx e st = Except.error (RunError.http s m) := by
  unfold processEpic
  simp [hskip, hdry, hf]

lemma epicFind_conn_aborts (ctx : Ctx) (e : Epic) (st : PState) (m : String)
    (hskip : ctx.skip_duplicate_check = false) (hdry : ctx.dry_run = false)
    (hf : ctx.client.findResp st.nFind = FindOutcome.connRaise m) :
    processEpic ctx e st = Except.error (RunError.conn m) := by
  unfold processEpic
  simp [hskip, hdry, hf]

lemma epicFind_auth_aborts (ctx : Ctx) (e : Epic) (st : PState) (s : Nat)
    (hskip : ctx.skip_duplicate_check = false) (hdry : ctx.dry_run = false)
    (hf : ctx.client.findResp st.nFind = FindOutcome.authRaise s) :
    processEpic ctx e st = Except.error (RunError.auth s) := by
  unfold processEpic
  simp [hskip, hdry, hf]

lemma featureFind_fail_recorded (ctx : Ctx) (eid : String) (eado : Option Nat)
    (f : Feature) (st : PState) (err : String)
    (hskip : ctx.skip_duplicate_check = false) (hdry : ctx.dry_run = false)
    (hf : errOfFindFailure (ctx.client.findResp st.nFind) = some err) :
    processFeature ctx eid eado f st =
      (st.afterFind Level.feature f.title ctx.wit.feature).recFailed
        Level.feature f.id f.title err := by
  unfold processFeature
  cases hr : ctx.client.findResp st.nFind <;> rw [hr] at hf <;>
    simp [errOfFindFailure] at hf <;> subst hf <;> simp [hskip, hdry, hr]

lemma taskFind_fail_recorded (ctx : Ctx) (o fid : String) (fa : Option Nat)
    (t : Task) (st : PState) (err : String)
    (hskip : ctx.skip_duplicate_check = false) (hdry : ctx.dry_run = false)
    (hf : errOfFindFailure (ctx.client.findResp st.nFind) = some err) :
    processTask ctx o fid fa t st =
      (st.afterFind Level.task t.title ctx.wit.task).recFailed
        Level.task t.id t.title err := by
  unfold processTask
  cases hr : ctx.client.findResp st.nFind <;> rw [hr] at hf <;>
    simp [errOfFindFailure] at hf <;> subst hf <;> simp [hskip, hdry, hr]

lemma epicCreate_fail_recorded (ctx : Ctx) (e : Epic) (st : PState) (err : String)
    (hskip : ctx.skip_duplicate_check = true) (hdry : ctx.dry_run = false)
    (hc : errOfCreateFailure (ctx.client.createResp st.nCreate) = some err) :
    processEpic ctx e st =
      Except.ok ((st.afterCreate Level.epic ctx.wit.epic e.title e.description
        none none e.fields).recFailed Level.epic e.id e.title err) := by
  unfold processEpic processEpicBody
  cases hr : ctx.client.createResp st.nCreate <;> rw [hr] at hc <;>
    simp [errOfCreateFailure] at hc <;> subst hc <;> simp [hskip, hdry, hr]

lemma featureCreate_fail_recorded (ctx : Ctx) (eid : String) (eado : Option Nat)
    (f : Feature) (st : PState) (err : String)
    (hskip : ctx.skip_duplicate_check = true) (hdry : ctx.dry_run = false)
    (hc : errOfCreateFailure (ctx.client.createResp st.nCreate) = some err) :
    processFeature ctx eid eado f st =
      (st.afterCreate Level.feature ctx.wit.feature f.title f.description
        (some (f.ownerUserIds.headD "")) eado f.fields).recFailed
        Level.feature f.id f.title err := by
  unfold processFeature processFeatureBody
  cases hr : ctx.client.createResp st.nCreate <;> rw [hr] at hc <;>
    simp [errOfCreateFailure] at hc <;> subst hc <;> simp [hskip, hdry, hr]

lemma taskCreate_fail_recorded (ctx : Ctx) (o fid : String) (fa : Option Nat)
    (t : Task) (st : PState) (err : String)
    (hskip : ctx.skip_duplicate_check = true) (hdry : ctx.dry_run = false)
    (hc : errOfCreateFailure (ctx.client.createResp st.nCreate) = some err) :
    processTask ctx o fid fa t st =
      (st.afterCreate Level.task ctx.wit.task t.title t.description
        (some o) fa t.fields).recFailed Level.task t.id t.title err := by
  unfold processTask processTaskBody
  cases hr : ctx.client.createResp st.nCreate <;> rw [hr] at hc <;>
    simp [errOfCreateFailure] at hc <;> subst hc <;> simp [hskip, hdry, hr]

/-! Found-id paths: skipped is recorded and the subtree still runs under the
found id -/

lemma epicFind_found_skips (ctx : Ctx) (e : Epic) (st : PState) (eid : Nat)
    (hskip : ctx.skip_duplicate_check = false) (hdry : ctx.dry_run = false)
    (hf : ctx.client.findResp st.nFind = FindOutcome.found eid) :
    processEpic ctx e st =
      Except.ok (processFeatures ctx e.id (some eid) e.features
        ((st.afterFind Level.epic e.title ctx.wit.epic).recSkipped
          Level.epic e.id e.title eid)) := by
  unfold processEpic processEpicBody
  simp [hskip, hdry, hf]

lemma featureFind_found_skips (ctx : Ctx) (eid : String) (eado : Option Nat)
    (f : Feature) (st : PState) (fid : Nat)
    (hskip : ctx.skip_duplicate_check = false) (hdry : ctx.dry_run = false)
    (hf : ctx.client.findResp st.nFind = FindOutcome.found fid) :
    processFeature ctx eid eado f st =
      processTasks ctx (f.ownerUserIds.headD "") f.id (some fid) f.tasks
        ((st.afterFind Level.feature f.title ctx.wit.feature).recSkipped
          Level.feature f.id f.title fid) := by
  unfold processFeature processFeatureBody
  simp [hskip, hdry, hf]


/-! ## Claim theorems -/


lemma apply_counts (s : Summary) (op : SummaryOp) :
    (s.apply op).created = s.created + (if op.isCreatedLike then 1 else 0) ∧
    (s.apply op).skipped = s.skipped + (if op.isSkippedOp then 1 else 0) ∧
    (s.apply op).failed = s.failed + (if op.isFailedOp then 1 else 0) ∧
    (s.apply op).failures.length = s.failures.length + (if op.isFailedOp then 1 else 0) := by
  cases op <;>
    simp [Summary.apply, SummaryOp.isCreatedLike, SummaryOp.isSkippedOp, SummaryOp.isFailedOp]

lemma applyAll_counts :
    ∀ (ops : List SummaryOp) (s : Summary),
      (s.applyAll ops).created = s.created + (ops.filter SummaryOp.isCreatedLike).length ∧
      (s.applyAll ops).skipped = s.skipped + (ops.filter SummaryOp.isSkippedOp).length ∧
      (s.applyAll ops).failed = s.failed + (ops.filter SummaryOp.isFailedOp).length ∧
      (s.applyAll ops).failures.length =
        s.failures.length + (ops.filter SummaryOp.isFailedOp).length
  | [], s => by simp [Summary.applyAll]
  | op :: rest, s => by
    obtain ⟨i1, i2, i3, i4⟩ := applyAll_counts rest (s.apply op)
    obtain ⟨a1, a2, a3, a4⟩ := apply_counts s op
    refine ⟨?_, ?_, ?_, ?_⟩ <;>
      simp only [Summary.applyAll, i1, i2, i3, i4, a1, a2, a3, a4, List.filter_cons] <;>
      cases op <;>
      simp [SummaryOp.isCreatedLike, SummaryOp.isSkippedOp, SummaryOp.isFailedOp] <;> omega

/-- C9: after any sequence of record operations on a fresh `Summary`, the
failed counter equals the length of the failures list (only `record_failed`
appends to it, one message per call), `record_created` and `record_dry_run`
increment the same `created` counter, each operation increments exactly one
counter, and no operation ever decreases a counter. -/
theorem C9_summary_accumulator_invariant :
    (∀ ops : List SummaryOp,
        (Summary.init.applyAll ops).failed = (Summary.init.applyAll ops).failures.length ∧
        (Summary.init.applyAll ops).created = (ops.filter SummaryOp.isCreatedLike).length ∧
        (Summary.init.applyAll ops).skipped = (ops.filter SummaryOp.isSkippedOp).length ∧
        (Summary.init.applyAll ops).failed = (ops.filter SummaryOp.isFailedOp).length) ∧
    (∀ (s : Summary) (op : SummaryOp),
        (s.apply op).created + (s.apply op).skipped + (s.apply op).failed =
          s.created + s.skipped + s.failed + 1 ∧
        s.created ≤ (s.apply op).created ∧
        s.skipped ≤ (s.apply op).skipped ∧
        s.failed ≤ (s.apply op).failed ∧
        (s.apply op).failures.length =
          s.failures.length + (if op.isFailedOp then 1 else 0)) := by
  constructor
  · intro ops
    obtain ⟨h1, h2, h3, h4⟩ := applyAll_counts ops Summary.init
    refine ⟨?_, ?_, ?_, ?_⟩ <;> simp [Summary.init] at h1 h2 h3 h4 ⊢ <;> omega
  · intro s op
    obtain ⟨h1, h2, h3, h4⟩ := apply_counts s op
    cases op <;>
      simp [SummaryOp.isCreatedLike, SummaryOp.isSkippedOp, SummaryOp.isFailedOp]
        at h1 h2 h3 h4 ⊢ <;> omega

/-- C5: with responses [429, 429, 200-success] one `_request` call returns
the success response after exactly 2 backoff waits; with four consecutive
connection errors and `MAX_RETRIES = 3` it re-raises the transport error
after 3 retries (4 attempts, 3 waits); and a first response with any
non-429 status is returned immediately after a single attempt and no wait. -/
theorem C5_retry_policy :
    (∀ (r0 r1 m : String) (rest : Nat → Resp),
        request (fun i => if i = 0 then Resp.http 429 r0
          else if i = 1 then Resp.http 429 r1
          else if i = 2 then Resp.http 200 m else rest i) =
          ⟨ReqOutcome.response 200 m, 3, 2⟩) ∧
    (∀ (m0 m1 m2 m3 : String) (rest : Nat → Resp),
        request (fun i => if i = 0 then Resp.connError m0
          else if i = 1 then Resp.connError m1
          else if i = 2 then Resp.connError m2
          else if i = 3 then Resp.connError m3 else rest i) =
          ⟨ReqOutcome.connRaise m3, 4, 3⟩) ∧
    (∀ (s : Nat) (m : String) (rest : Nat → Resp), s ≠ 429 →
        request (fun i => if i = 0 then Resp.http s m else rest i) =
          ⟨ReqOutcome.response s m, 1, 0⟩) := by
  refine ⟨fun r0 r1 m rest => rfl, fun m0 m1 m2 m3 rest => rfl, fun s m rest h => ?_⟩
  simp [request, MAX_RETRIES, requestAux, h]

/-- C5 witness: the three retry facts at concrete inputs. -/
theorem C5_retry_policy_witness :
    request (fun i => if i = 0 then Resp.http 429 "busy"
      else if i = 1 then Resp.http 429 "busy"
      else if i = 2 then Resp.http 200 "" else Resp.http 200 "") =
      ⟨ReqOutcome.response 200 "", 3, 2⟩ ∧
    request (fun i => if i = 0 then Resp.connError "refused"
      else if i = 1 then Resp.connError "refused"
      else if i = 2 then Resp.connError "refused"
      else if i = 3 then Resp.connError "refused" else Resp.http 200 "") =
      ⟨ReqOutcome.connRaise "refused", 4, 3⟩ ∧
    request (fun i => if i = 0 then Resp.http 500 "server error"
      else Resp.http 200 "") = ⟨ReqOutcome.response 500 "server error", 1, 0⟩ :=
  ⟨C5_retry_policy.1 "busy" "busy" "" _,
   C5_retry_policy.2.1 "refused" "refused" "refused" "refused" _,
   C5_retry_policy.2.2 500 "server error" _ (by decide)⟩

lemma requestAux_all429 (responses : Nat → Resp) (m : String)
    (h : ∀ i, responses i = Resp.http 429 m) :
    ∀ remaining attempt, requestAux responses attempt remaining =
      ⟨ReqOutcome.response 429 m, remaining + 1, remaining + 1⟩ := by
  intro remaining
  induction remaining with
  | zero => intro attempt; simp [requestAux, h attempt]
  | succ n ih => intro attempt; simp [requestAux, h attempt, ih (attempt + 1)]

/-- C10: when every attempt is answered 429, `_request` sleeps after each of
the `MAX_RETRIES + 1` attempts (4 waits) and then returns the final 429
response instead of raising; `create_work_item` then surfaces it as the
ordinary `AzureDevOpsError` remote-API failure with status 429. -/
theorem C10_rate_limit_exhaustion (responses : Nat → Resp) (m : String) (newId : Nat)
    (h : ∀ i, responses i = Resp.http 429 m) :
    request responses =
      ⟨ReqOutcome.response 429 m, MAX_RETRIES + 1, MAX_RETRIES + 1⟩ ∧
    create_work_item_run responses newId =
      ⟨CreateOutcome.adoRaise 429 m, MAX_RETRIES + 1, MAX_RETRIES + 1⟩ := by
  have hr : request responses = ⟨ReqOutcome.response 429 m, 4, 4⟩ :=
    requestAux_all429 responses m h 3 0
  constructor
  · exact hr
  · simp [create_work_item_run, hr, MAX_RETRIES]

/-- C10 witness: the all-429 script instantiated concretely. -/
theorem C10_rate_limit_exhaustion_witness :
    request (fun _ => Resp.http 429 "busy") =
      ⟨ReqOutcome.response 429 "busy", MAX_RETRIES + 1, MAX_RETRIES + 1⟩ ∧
    create_work_item_run (fun _ => Resp.http 429 "busy") 7 =
      ⟨CreateOutcome.adoRaise 429 "busy", MAX_RETRIES + 1, MAX_RETRIES + 1⟩ :=
  C10_rate_limit_exhaustion (fun _ => Resp.http 429 "busy") "busy" 7 (fun i => rfl)




/-- C1 counterexample: at the epic level the duplicate-check except clause
catches only AzureDevOpsError, so a transport error or an HTTP error from
`raise_for_status` propagates and aborts the whole run instead of being
recorded as a failed outcome with processing continuing. -/
theorem C1_counterexample :
    process_epics connFailFindClient cfg0 [epic0] false false wit0 =
      Except.error (RunError.conn "Connection aborted.") ∧
    process_epics httpFailFindClient cfg0 [epic0] false false wit0 =
      Except.error (RunError.http 500 "500 Server Error") := ⟨rfl, rfl⟩

/-- C1 (amended): for feature and task nodes a non-authentication
duplicate-check failure (HTTP error or transport error) records exactly one
failed outcome for that node, does not attempt its subtree, and the sibling
fold continues; for epic nodes the same failure is uncaught and aborts the
run as a propagated error. -/
theorem C1_nonauth_lookup_failure :
    (∀ (ctx : Ctx) (eid : String) (eado : Option Nat) (f : Feature) (st : PState)
        (s : Nat) (m : String),
        ctx.skip_duplicate_check = false → ctx.dry_run = false →
        (ctx.client.findResp st.nFind = FindOutcome.httpRaise s m ∨
         ctx.client.findResp st.nFind = FindOutcome.connRaise m) →
        processFeature ctx eid eado f st =
          (st.afterFind Level.feature f.title ctx.wit.feature).recFailed
            Level.feature f.id f.title m) ∧
    (∀ (ctx : Ctx) (o fid : String) (fa : Option Nat) (t : Task) (st : PState)
        (s : Nat) (m : String),
        ctx.skip_duplicate_check = false → ctx.dry_run = false →
        (ctx.client.findResp st.nFind = FindOutcome.httpRaise s m ∨
         ctx.client.findResp st.nFind = FindOutcome.connRaise m) →
        processTask ctx o fid fa t st =
          (st.afterFind Level.task t.title ctx.wit.task).recFailed
            Level.task t.id t.title m) ∧
    (∀ (ctx : Ctx) (eid : String) (eado : Option Nat) (f : Feature)
        (rest : List Feature) (st : PState),
        processFeatures ctx eid eado (f :: rest) st =
          processFeatures ctx eid eado rest (processFeature ctx eid eado f st)) ∧
    (∀ (ctx : Ctx) (o fid : String) (fa : Option Nat) (t : Task) (rest : List Task)
        (st : PState),
        processTasks ctx o fid fa (t :: rest) st =
          processTasks ctx o fid fa rest (processTask ctx o fid fa t st)) ∧
    (∀ (ctx : Ctx) (e : Epic) (st : PState) (s : Nat) (m : String),
        ctx.skip_duplicate_check = false → ctx.dry_run = false →
        ctx.client.findResp st.nFind = FindOutcome.httpRaise s m →
        processEpic ctx e st = Except.error (RunError.http s m)) ∧
    (∀ (ctx : Ctx) (e : Epic) (st : PState) (m : String),
        ctx.skip_duplicate_check = false → ctx.dry_run = false →
        ctx.client.findResp st.nFind = FindOutcome.connRaise m →
        processEpic ctx e st = Except.error (RunError.conn m)) := by
  refine ⟨?_, ?_, fun _ _ _ _ _ _ => rfl, fun _ _ _ _ _ _ _ => rfl, ?_, ?_⟩
  · intro ctx eid eado f st s m hskip hdry hf
    rcases hf with hf | hf <;>
      exact featureFind_fail_recorded ctx eid eado f st m hskip hdry (by rw [hf]; rfl)
  · intro ctx o fid fa t st s m hskip hdry hf
    rcases hf with hf | hf <;>
      exact taskFind_fail_recorded ctx o fid fa t st m hskip hdry (by rw [hf]; rfl)
  · intro ctx e st s m hskip hdry hf
    exact epicFind_http_aborts ctx e st s m hskip hdry hf
  · intro ctx e st m hskip hdry hf
    exact epicFind_conn_aborts ctx e st m hskip hdry hf

/-- C1 witness: the amended behaviour at concrete inputs. -/
theorem C1_nonauth_lookup_failure_witness :
    processFeature ⟨httpFailFindClient, cfg0, false, false, wit0⟩ "E1" (some 9)
        feat0 PState.init =
      (PState.init.afterFind Level.feature "Beta" "Feature").recFailed
        Level.feature "F1" "Beta" "500 Server Error" ∧
    processTask ⟨connFailFindClient, cfg0, false, false, wit0⟩ "a@x.com" "F1" (some 9)
        task0 PState.init =
      (PState.init.afterFind Level.task "Gamma" "Task").recFailed
        Level.task "T1" "Gamma" "Connection aborted." ∧
    processEpic ⟨connFailFindClient, cfg0, false, false, wit0⟩ epic0 PState.init =
      Except.error (RunError.conn "Connection aborted.") :=
  ⟨C1_nonauth_lookup_failure.1 _ "E1" (some 9) feat0 PState.init 500 "500 Server Error"
      rfl rfl (Or.inl rfl),
   C1_nonauth_lookup_failure.2.1 _ "a@x.com" "F1" (some 9) task0 PState.init 0
      "Connection aborted." rfl rfl (Or.inr rfl),
   C1_nonauth_lookup_failure.2.2.2.2.2 _ epic0 PState.init "Connection aborted."
      rfl rfl rfl⟩



/-- C2 counterexample: an authentication failure (HTTP 401) raised by the
feature-level duplicate check is caught by the broad except clause and
recorded as a per-node failure; the run then completes normally with
failed = 1 instead of aborting. -/
theorem C2_counterexample :
    (process_epics authAtFeatureClient cfg0 [epic0] false false wit0).map
      (fun st => (st.summary.created, st.summary.skipped, st.summary.failed,
        st.summary.failures, st.events)) =
    Except.ok (1, 0, 1,
      ["[F1] \"Beta\": HTTP 401: Authentication failed. Check your PAT and its permissions."],
      [⟨Level.epic, "E1", NodeOutcome.createdOut 101⟩,
       ⟨Level.feature, "F1", NodeOutcome.failedOut (adoErrStr 401 AUTH_MSG)⟩]) := rfl

/-- C2 (amended): an authentication failure aborts the run only when it is
raised by the epic-level duplicate-check lookup; an authentication failure
from a feature- or task-level lookup, or from a create call at any level, is
caught, recorded as a per-node failed outcome (whose subtree is abandoned),
and processing continues. -/
theorem C2_auth_failure_scope :
    (∀ (ctx : Ctx) (e : Epic) (st : PState) (s : Nat),
        ctx.skip_duplicate_check = false → ctx.dry_run = false →
        ctx.client.findResp st.nFind = FindOutcome.authRaise s →
        processEpic ctx e st = Except.error (RunError.auth s)) ∧
    (∀ (ctx : Ctx) (eid : String) (eado : Option Nat) (f : Feature) (st : PState) (s : Nat),
        ctx.skip_duplicate_check = false → ctx.dry_run = false →
        ctx.client.findResp st.nFind = FindOutcome.authRaise s →
        processFeature ctx eid eado f st =
          (st.afterFind Level.feature f.title ctx.wit.feature).recFailed
            Level.feature f.id f.title (adoErrStr s AUTH_MSG)) ∧
    (∀ (ctx : Ctx) (o fid : String) (fa : Option Nat) (t : Task) (st : PState) (s : Nat),
        ctx.skip_duplicate_check = false → ctx.dry_run = false →
        ctx.client.findResp st.nFind = FindOutcome.authRaise s →
        processTask ctx o fid fa t st =
          (st.afterFind Level.task t.title ctx.wit.task).recFailed
            Level.task t.id t.title (adoErrStr s AUTH_MSG)) ∧
    (∀ (ctx : Ctx) (e : Epic) (st : PState) (s : Nat),
        ctx.skip_duplicate_check = true → ctx.dry_run = false →
        ctx.client.createResp st.nCreate = CreateOutcome.authRaise s →
        processEpic ctx e st =
          Except.ok ((st.afterCreate Level.epic ctx.wit.epic e.title e.description
            none none e.fields).recFailed Level.epic e.id e.title (adoErrStr s AUTH_MSG))) ∧
    (∀ (ctx : Ctx) (eid : String) (eado : Option Nat) (f : Feature) (st : PState) (s : Nat),
        ctx.skip_duplicate_check = true → ctx.dry_run = false →
        ctx.client.createResp st.nCreate = CreateOutcome.authRaise s →
        processFeature ctx eid eado f st =
          (st.afterCreate Level.feature ctx.wit.feature f.title f.description
            (some (f.ownerUserIds.headD "")) eado f.fields).recFailed
            Level.feature f.id f.title (adoErrStr s AUTH_MSG)) ∧
    (∀ (ctx : Ctx) (o fid : String) (fa : Option Nat) (t : Task) (st : PState) (s : Nat),
        ctx.skip_duplicate_check = true → ctx.dry_run = false →
        ctx.client.createResp st.nCreate = CreateOutcome.authRaise s →
        processTask ctx o fid fa t st =
          (st.afterCreate Level.task ctx.wit.task t.title t.description
            (some o) fa t.fields).recFailed Level.task t.id t.title
            (adoErrStr s AUTH_MSG)) := by
  refine ⟨?_, ?_, ?_, ?_, ?_, ?_⟩
  · intro ctx e st s hskip hdry hf
    exact epicFind_auth_aborts ctx e st s hskip hdry hf
  · intro ctx eid eado f st s hskip hdry hf
    exact featureFind_fail_recorded ctx eid eado f st _ hskip hdry (by rw [hf]; rfl)
  · intro ctx o fid fa t st s hskip hdry hf
    exact taskFind_fail_recorded ctx o fid fa t st _ hskip hdry (by rw [hf]; rfl)
  · intro ctx e st s hskip hdry hc
    exact epicCreate_fail_recorded ctx e st _ hskip hdry (by rw [hc]; rfl)
  · intro ctx eid eado f st s hskip hdry hc
    exact featureCreate_fail_recorded ctx eid eado f st _ hskip hdry (by rw [hc]; rfl)
  · intro ctx o fid fa t st s hskip hdry hc
    exact taskCreate_fail_recorded ctx o fid fa t st _ hskip hdry (by rw [hc]; rfl)

/-- C2 witness: the amended behaviour at concrete inputs. -/
theorem C2_auth_failure_scope_witness :
    processEpic ⟨⟨fun _ => FindOutcome.authRaise 403, fun _ => CreateOutcome.ok 1⟩,
        cfg0, false, false, wit0⟩ epic0 PState.init =
      Except.error (RunError.auth 403) ∧
    processFeature ⟨⟨fun _ => FindOutcome.authRaise 401, fun _ => CreateOutcome.ok 1⟩,
        cfg0, false, false, wit0⟩ "E1" (some 9) feat0 PState.init =
      (PState.init.afterFind Level.feature "Beta" "Feature").recFailed
        Level.feature "F1" "Beta" (adoErrStr 401 AUTH_MSG) ∧
    processFeature ⟨⟨fun _ => FindOutcome.notFound, fun _ => CreateOutcome.authRaise 401⟩,
        cfg0, false, true, wit0⟩ "E1" (some 9) feat0 PState.init =
      (PState.init.afterCreate Level.feature "Feature" "Beta" none (some "a@x.com")
        (some 9) none).recFailed Level.feature "F1" "Beta" (adoErrStr 401 AUTH_MSG) :=
  ⟨C2_auth_failure_scope.1 _ epic0 PState.init 403 rfl rfl rfl,
   C2_auth_failure_scope.2.1 _ "E1" (some 9) feat0 PState.init 401 rfl rfl rfl,
   C2_auth_failure_scope.2.2.2.2.1 _ "E1" (some 9) feat0 PState.init 401 rfl rfl rfl⟩

/-- C4: dry-run processing never invokes the remote client (no lookup and no
create call is traced), always completes, counts every node as created, and
ends with created equal to the total node count and zero skipped and zero
failed. -/
theorem C4_dry_run_counts :
    ∀ (client : Client) (config : Config) (wit : Wit) (skip : Bool) (epics : List Epic),
      ∃ st, process_epics client config epics true skip wit = Except.ok st ∧
        st.calls = [] ∧
        st.summary.created = epicsNodeCount epics ∧
        st.summary.skipped = 0 ∧
        st.summary.failed = 0 := by
  intro client config wit skip epics
  obtain ⟨st, hrun, h1, h2, h3, h4⟩ :=
    dry_processEpicsGo ⟨client, config, true, skip, wit⟩ rfl epics PState.init
  refine ⟨st, hrun, ?_, ?_, ?_, ?_⟩
  · simpa [PState.init] using h1
  · simpa [PState.init, Summary.init] using h2
  · simpa [PState.init, Summary.init] using h3
  · simpa [PState.init, Summary.init] using h4




/-- C3: in every completed run the summary counters equal the per-category
counts of recorded outcomes — so created + skipped + failed equals the total
number of recorded (attempted) nodes, with exactly one record per attempted
node — and a node whose lookup or create fails contributes exactly one
failed record while its whole subtree is abandoned: processing of the node
returns right after the failed record, appending no further outcome and no
further client call for any descendant. -/
theorem C3_outcome_accounting :
    (∀ (client : Client) (config : Config) (epics : List Epic) (dry skip : Bool)
        (wit : Wit) (st : PState),
        process_epics client config epics dry skip wit = Except.ok st →
        SummaryMatches st ∧
        st.summary.created + st.summary.skipped + st.summary.failed = st.events.length) ∧
    (∀ (ctx : Ctx) (e : Epic) (st : PState) (err : String),
        ctx.skip_duplicate_check = true → ctx.dry_run = false →
        errOfCreateFailure (ctx.client.createResp st.nCreate) = some err →
        processEpic ctx e st =
          Except.ok ((st.afterCreate Level.epic ctx.wit.epic e.title e.description
            none none e.fields).recFailed Level.epic e.id e.title err)) ∧
    (∀ (ctx : Ctx) (eid : String) (eado : Option Nat) (f : Feature) (st : PState)
        (err : String),
        ctx.skip_duplicate_check = true → ctx.dry_run = false →
        errOfCreateFailure (ctx.client.createResp st.nCreate) = some err →
        processFeature ctx eid eado f st =
          (st.afterCreate Level.feature ctx.wit.feature f.title f.description
            (some (f.ownerUserIds.headD "")) eado f.fields).recFailed
            Level.feature f.id f.title err) ∧
    (∀ (ctx : Ctx) (eid : String) (eado : Option Nat) (f : Feature) (st : PState)
        (err : String),
        ctx.skip_duplicate_check = false → ctx.dry_run = false →
        errOfFindFailure (ctx.client.findResp st.nFind) = some err →
        processFeature ctx eid eado f st =
          (st.afterFind Level.feature f.title ctx.wit.feature).recFailed
            Level.feature f.id f.title err) := by
  refine ⟨?_, ?_, ?_, ?_⟩
  · intro client config epics dry skip wit st h
    unfold process_epics at h
    have sm := SM_processEpicsGo ⟨client, config, dry, skip, wit⟩ epics PState.init st h SM_init
    refine ⟨sm, ?_⟩
    obtain ⟨h1, h2, h3, h4⟩ := sm
    rw [h1, h2, h3]
    exact eventPartition st.events
  · intro ctx e st err hskip hdry hc
    exact epicCreate_fail_recorded ctx e st err hskip hdry hc
  · intro ctx eid eado f st err hskip hdry hc
    exact featureCreate_fail_recorded ctx eid eado f st err hskip hdry hc
  · intro ctx eid eado f st err hskip hdry hf
    exact featureFind_fail_recorded ctx eid eado f st err hskip hdry hf

/-- C3 witness: the accounting and the abandoned-subtree equality at concrete
inputs (the spec's failing-feature scenario and a failing feature create). -/
theorem C3_outcome_accounting_witness :
    (SummaryMatches
      (runState (process_epics failFeatureClient cfg0 [epic0] false false wit0)) ∧
      (runState (process_epics failFeatureClient cfg0 [epic0] false false wit0)).summary.created +
        (runState (process_epics failFeatureClient cfg0 [epic0] false false wit0)).summary.skipped +
        (runState (process_epics failFeatureClient cfg0 [epic0] false false wit0)).summary.failed =
        (runState (process_epics failFeatureClient cfg0 [epic0] false false wit0)).events.length) ∧
    processFeature ⟨⟨fun _ => FindOutcome.notFound, fun _ => CreateOutcome.adoRaise 500 "boom"⟩,
        cfg0, false, true, wit0⟩ "E1" (some 101) feat0 PState.init =
      (PState.init.afterCreate Level.feature "Feature" "Beta" none (some "a@x.com")
        (some 101) none).recFailed Level.feature "F1" "Beta" (adoErrStr 500 "boom") :=
  ⟨C3_outcome_accounting.1 failFeatureClient cfg0 [epic0] false false wit0
      (runState (process_epics failFeatureClient cfg0 [epic0] false false wit0)) rfl,
   C3_outcome_accounting.2.2.1 _ "E1" (some 101) feat0 PState.init
      (adoErrStr 500 "boom") rfl rfl rfl⟩

/-- C6: a node whose duplicate check finds a pre-existing remote id is
recorded as skipped with that id and its children are still processed under
it: the epic's features run with the found id as the feature-create parent,
and a feature's tasks run with the found id as the task-create parent; in
general every feature-level create call issued while processing an epic's
features carries that epic's remote id as parent, and every task-level
create call issued while processing a feature's tasks carries that feature's
remote id as parent. -/
theorem C6_duplicate_found_skips_and_links :
    (∀ (ctx : Ctx) (e : Epic) (st : PState) (eid : Nat),
        ctx.skip_duplicate_check = false → ctx.dry_run = false →
        ctx.client.findResp st.nFind = FindOutcome.found eid →
        processEpic ctx e st =
          Except.ok (processFeatures ctx e.id (some eid) e.features
            ((st.afterFind Level.epic e.title ctx.wit.epic).recSkipped
              Level.epic e.id e.title eid))) ∧
    (∀ (ctx : Ctx) (eid : String) (eado : Option Nat) (f : Feature) (st : PState)
        (fid : Nat),
        ctx.skip_duplicate_check = false → ctx.dry_run = false →
        ctx.client.findResp st.nFind = FindOutcome.found fid →
        processFeature ctx eid eado f st =
          processTasks ctx (f.ownerUserIds.headD "") f.id (some fid) f.tasks
            ((st.afterFind Level.feature f.title ctx.wit.feature).recSkipped
              Level.feature f.id f.title fid)) ∧
    (∀ (ctx : Ctx) (eid : String) (eado : Option Nat) (fs : List Feature) (st : PState),
        ∀ c ∈ (processFeatures ctx eid eado fs st).calls,
          c ∈ st.calls ∨ featureCreateParentIs eado c) ∧
    (∀ (ctx : Ctx) (o fid : String) (fa : Option Nat) (ts : List Task) (st : PState),
        ∀ c ∈ (processTasks ctx o fid fa ts st).calls,
          c ∈ st.calls ∨ taskCreateParentIs fa c) := by
  refine ⟨?_, ?_, ?_, ?_⟩
  · intro ctx e st eid hskip hdry hf
    exact epicFind_found_skips ctx e st eid hskip hdry hf
  · intro ctx eid eado f st fid hskip hdry hf
    exact featureFind_found_skips ctx eid eado f st fid hskip hdry hf
  · intro ctx eid eado fs st c hc
    exact mem_calls_processFeatures ctx eid eado fs st c hc
  · intro ctx o fid fa ts st c hc
    rcases mem_calls_processTasks ctx o fid fa ts st c hc with h | h
    · exact Or.inl h
    · exact Or.inr (taskScopeCall_createParent _ _ _ h)

/-- C6 witness: the skipped-with-found-id equalities and the parent-link
facts at concrete inputs. -/
theorem C6_duplicate_found_skips_and_links_witness :
    processEpic ⟨foundClient, cfg0, false, false, wit0⟩ epic0 PState.init =
      Except.ok (processFeatures ⟨foundClient, cfg0, false, false, wit0⟩ "E1" (some 77)
        [feat0] ((PState.init.afterFind Level.epic "Alpha" "Epic").recSkipped
          Level.epic "E1" "Alpha" 77)) ∧
    processFeature ⟨foundClient, cfg0, false, false, wit0⟩ "E1" (some 77) feat0
        PState.init =
      processTasks ⟨foundClient, cfg0, false, false, wit0⟩ "a@x.com" "F1" (some 77)
        [task0] ((PState.init.afterFind Level.feature "Beta" "Feature").recSkipped
          Level.feature "F1" "Beta" 77) ∧
    (Call.createCall Level.task "Task" "Gamma" none (some "a@x.com") (some 55) none ∈
        PState.init.calls ∨
      taskCreateParentIs (some 55)
        (Call.createCall Level.task "Task" "Gamma" none (some "a@x.com") (some 55) none)) :=
  ⟨C6_duplicate_found_skips_and_links.1 _ epic0 PState.init 77 rfl rfl rfl,
   C6_duplicate_found_skips_and_links.2.1 _ "E1" (some 77) feat0 PState.init 77 rfl rfl rfl,
   C6_duplicate_found_skips_and_links.2.2.2
     ⟨okCreateClient, cfg0, false, true, wit0⟩ "a@x.com" "F1" (some 55) [task0] PState.init
     (Call.createCall Level.task "Task" "Gamma" none (some "a@x.com") (some 55) none)
     (by decide)⟩

/-- C7: under the feature-owner strategy, every task-level create call issued
while processing a feature carries the first entry of that feature's
ownerUserIds list as assignee, and every task-level dry-run record shows the
same assignee — regardless of the fields map any task defines. -/
theorem C7_owner_inheritance :
    ∀ (ctx : Ctx) (eid : String) (eado : Option Nat) (f : Feature) (st : PState)
      (o : String) (os : List String),
      f.ownerUserIds = o :: os →
      (∀ c ∈ (processFeature ctx eid eado f st).calls, c ∈ st.calls ∨ taskAssigneeOk o c) ∧
      (∀ e ∈ (processFeature ctx eid eado f st).events,
        e ∈ st.events ∨ taskDryAssigneeOk o e) := by
  intro ctx eid eado f st o os h
  have ho : f.ownerUserIds.headD "" = o := by rw [h]; rfl
  constructor
  · intro c hc
    rcases mem_calls_processFeature ctx eid eado f st c hc with h2 | h2
    · exact Or.inl h2
    · rw [ho] at h2
      exact Or.inr (featScopeCall_taskAssignee _ _ _ h2)
  · intro e he
    rcases mem_events_processFeature ctx eid eado f st e he with h2 | h2
    · exact Or.inl h2
    · rw [ho] at h2
      exact Or.inr (featScopeEvent_dryAssignee _ _ h2)

/-- C7 witness: the assignee facts at concrete inputs — a live run's task
create call and a dry run's task record, both under feature Beta owned by
a@x.com. -/
theorem C7_owner_inheritance_witness :
    (Call.createCall Level.task "Task" "Gamma" none (some "a@x.com") (some 200) none ∈
        PState.init.calls ∨
      taskAssigneeOk "a@x.com"
        (Call.createCall Level.task "Task" "Gamma" none (some "a@x.com") (some 200) none)) ∧
    ((⟨Level.task, "T1", NodeOutcome.dryRunOut (some "a@x.com") (some "Feature [F1]")⟩ : Event) ∈
        PState.init.events ∨
      taskDryAssigneeOk "a@x.com"
        ⟨Level.task, "T1", NodeOutcome.dryRunOut (some "a@x.com") (some "Feature [F1]")⟩) :=
  ⟨(C7_owner_inheritance ⟨okCreateClient, cfg0, false, true, wit0⟩ "E1" (some 9) feat0
      PState.init "a@x.com" [] rfl).1
      (Call.createCall Level.task "Task" "Gamma" none (some "a@x.com") (some 200) none)
      (by decide),
   (C7_owner_inheritance ⟨okCreateClient, cfg0, true, true, wit0⟩ "E1" none feat0
      PState.init "a@x.com" [] rfl).2
      ⟨Level.task, "T1", NodeOutcome.dryRunOut (some "a@x.com") (some "Feature [F1]")⟩
      (by decide)⟩




lemma append_ite (errs : List String) (c : Prop) [Decidable c] (x : String) :
    (if c then errs ++ [x] else errs) = errs ++ (if c then [x] else []) := by
  split <;> simp

lemma pushAll_append (l1 l2 : List String) :
    ∀ seen, pushAll seen (l1 ++ l2) = pushAll (pushAll seen l1) l2 := by
  induction l1 with
  | nil => intro seen; rfl
  | cons i rest ih => intro seen; simpa [pushAll] using ih (i :: seen)

lemma dupScan_append (l1 l2 : List String) :
    ∀ seen, dupScan seen (l1 ++ l2) =
      dupScan seen l1 ++ dupScan (pushAll seen l1) l2 := by
  induction l1 with
  | nil => intro seen; rfl
  | cons i rest ih =>
    intro seen
    simp [dupScan, pushAll, ih (i :: seen), List.append_assoc]

lemma scanTasks_spec :
    ∀ (ts : List Task) (seen errs : List String),
      scanTasks seen errs ts =
        (pushAll seen (ts.map Task.id), errs ++ dupScan seen (ts.map Task.id)) := by
  intro ts
  induction ts with
  | nil => intro seen errs; simp [scanTasks, pushAll, dupScan]
  | cons t rest ih =>
    intro seen errs
    simp [scanTasks, pushAll, dupScan, ih, append_ite, List.append_assoc]

lemma scanFeatures_spec :
    ∀ (fs : List Feature) (seen errs : List String),
      scanFeatures seen errs fs =
        (pushAll seen ((fs.map idsOfFeature).flatten),
         errs ++ dupScan seen ((fs.map idsOfFeature).flatten)) := by
  intro fs
  induction fs with
  | nil => intro seen errs; simp [scanFeatures, pushAll, dupScan]
  | cons f rest ih =>
    intro seen errs
    simp only [scanFeatures, scanTasks_spec, List.map_cons, List.flatten_cons, idsOfFeature]
    rw [ih]
    simp only [List.cons_append, List.append_eq, dupScan, pushAll, dupScan_append,
      pushAll_append, append_ite, List.append_assoc]

lemma scanEpics_spec :
    ∀ (es : List Epic) (seen errs : List String),
      scanEpics seen errs es =
        (pushAll seen (allIds es), errs ++ dupScan seen (allIds es)) := by
  intro es
  induction es with
  | nil => intro seen errs; simp [scanEpics, allIds, pushAll, dupScan]
  | cons e rest ih =>
    intro seen errs
    simp only [scanEpics, scanFeatures_spec, allIds, List.map_cons, List.flatten_cons,
      idsOfEpic]
    rw [ih]
    simp only [List.cons_append, List.append_eq, dupScan, pushAll, dupScan_append,
      pushAll_append, append_ite, List.append_assoc]
    rfl

lemma mem_dupScan_of_seen (i : String) :
    ∀ (l seen : List String), i ∈ seen → i ∈ l → dupIdMsg i ∈ dupScan seen l := by
  intro l
  induction l with
  | nil => intro seen hs hl; cases hl
  | cons j rest ih =>
    intro seen hs hl
    rcases List.mem_cons.mp hl with rfl | hl
    · simp [dupScan, hs]
    · exact List.mem_append_right _ (ih (j :: seen) (List.mem_cons_of_mem j hs) hl)

lemma mem_dupScan_of_count (i : String) :
    ∀ (l seen : List String), 2 ≤ l.count i → dupIdMsg i ∈ dupScan seen l := by
  intro l
  induction l with
  | nil => intro seen h; simp at h
  | cons j rest ih =>
    intro seen h
    rw [List.count_cons] at h
    by_cases hji : j = i
    · subst hji
      simp only [beq_self_eq_true, if_true] at h
      have hmem : j ∈ rest := List.count_pos_iff.mp (by omega)
      exact List.mem_append_right _
        (mem_dupScan_of_seen j rest (j :: seen) (List.mem_cons_self j seen) hmem)
    · simp only [beq_iff_eq, hji, if_false] at h
      exact List.mem_append_right _ (ih (j :: seen) (by omega))



lemma mem_strategyErrTasks (t : Task) :
    ∀ ts : List Task, t ∈ ts → t.assignedTo.isSome → taskAssignMsg t.id ∈ strategyErrTasks ts := by
  intro ts
  induction ts with
  | nil => intro h hs; cases h
  | cons u rest ih =>
    intro ht hs
    rcases List.mem_cons.mp ht with rfl | ht
    · cases hh : t.assignedTo with
      | some v => simp [strategyErrTasks, hh]
      | none => rw [hh] at hs; simp at hs
    · exact List.mem_append_right _ (ih ht hs)

lemma mem_strategyErrFeatures (t : Task) (f : Feature) :
    ∀ fs : List Feature, f ∈ fs → t ∈ f.tasks → t.assignedTo.isSome →
      taskAssignMsg t.id ∈ strategyErrFeatures fs := by
  intro fs
  induction fs with
  | nil => intro h ht hs; cases h
  | cons g rest ih =>
    intro hf ht hs
    rcases List.mem_cons.mp hf with rfl | hf
    · exact List.mem_append_left _ (mem_strategyErrTasks t f.tasks ht hs)
    · exact List.mem_append_right _ (ih hf ht hs)

lemma mem_strategyErrEpics (t : Task) (f : Feature) (e : Epic) :
    ∀ es : List Epic, e ∈ es → f ∈ e.features → t ∈ f.tasks → t.assignedTo.isSome →
      taskAssignMsg t.id ∈ strategyErrEpics es := by
  intro es
  induction es with
  | nil => intro h hf ht hs; cases h
  | cons d rest ih =>
    intro he hf ht hs
    rcases List.mem_cons.mp he with rfl | he
    · exact List.mem_append_left _ (mem_strategyErrFeatures t f e.features hf ht hs)
    · exact List.mem_append_right _ (ih he hf ht hs)

/-- C8: a local id used twice anywhere in the plan makes validate_input
return an error list containing the corresponding Duplicate ID message; a
task carrying its own assignedTo under the feature-owner strategy (explicit
or defaulted) yields its validation error; and any non-empty error list
makes load_and_validate_input exit with status 2 before any processing. -/
theorem C8_validation_detects :
    (∀ (plan : Plan) (i : String),
        2 ≤ (allIds plan.epics).count i → dupIdMsg i ∈ validate_input plan) ∧
    (∀ (plan : Plan) (e : Epic) (f : Feature) (t : Task),
        plan.metadata.assignmentStrategy.getD "feature-owner" = "feature-owner" →
        e ∈ plan.epics → f ∈ e.features → t ∈ f.tasks → t.assignedTo.isSome →
        taskAssignMsg t.id ∈ validate_input plan) ∧
    (∀ plan : Plan, validate_input plan ≠ [] →
        load_and_validate_input plan = Except.error 2) := by
  refine ⟨?_, ?_, ?_⟩
  · intro plan i h
    simp only [validate_input, scanEpics_spec]
    apply List.mem_append_left
    simpa using mem_dupScan_of_count i (allIds plan.epics) [] h
  · intro plan e f t hst he hf ht hs
    simp only [validate_input, hst, eq_self_iff_true, if_true]
    exact List.mem_append_right _ (mem_strategyErrEpics t f e plan.epics he hf ht hs)
  · intro plan h
    unfold load_and_validate_input
    rw [if_neg h]

/-- C8 witness: the duplicate-id plan and the task-assignee plan concretely. -/
theorem C8_validation_detects_witness :
    dupIdMsg "E1" ∈ validate_input planDup ∧
    taskAssignMsg "T9" ∈ validate_input planAssigned ∧
    load_and_validate_input planDup = Except.error 2 :=
  ⟨C8_validation_detects.1 planDup "E1" (by decide),
   C8_validation_detects.2.1 planAssigned
     { id := "E9", title := "Alpha", features := [assignedFeat] } assignedFeat assignedTask
     rfl (by decide) (by decide) (by decide) rfl,
   C8_validation_detects.2.2 planDup (by decide)⟩


end ADO
